import Mathlib

/-!
Verification of the proxy URI codec, config generator, subscription
assembler and configuration validator of the free-proxy-configurations
repository (scripts/proxy_generator.py, scripts/auto_updater.py,
tests/config_validator.py).

Text is modelled as `List Char` (Python str, ASCII in all inputs the
claims exercise), byte strings as `List Nat` with every byte < 256.
Randomness (Python's global `random` module) is modelled as an explicitly
passed stream `Nat → Nat` of choice indices, one independent stream per
generated secret.
-/

set_option maxRecDepth 20000

abbrev LC := List Char

/-- The opening-brace character, written via its code point. -/
def lbrace : Char := Char.ofNat 123

/-- The closing-brace character, written via its code point. -/
def rbrace : Char := Char.ofNat 125

/-- The single-quote character, written via its code point. -/
def squote : Char := Char.ofNat 39

/-- The backslash character, written via its code point. -/
def bslash : Char := Char.ofNat 92

/-- The double-quote character. -/
def dquote : Char := Char.ofNat 34

/-- Python `str.split(ch)`: split a character list on every occurrence of
`ch`; `n` separators yield `n+1` (possibly empty) pieces. -/
def splitOnChar (ch : Char) : LC → List LC
  | [] => [[]]
  | c :: r =>
    if c = ch then [] :: splitOnChar ch r
    else
      match splitOnChar ch r with
      | [] => [[c]]
      | h :: t => (c :: h) :: t

/-- Python whitespace characters stripped by `str.strip()`. -/
def isPyWs (c : Char) : Bool :=
  c = ' ' || c = '\t' || c = '\n' || c = '\x0d' || c = '\x0b' || c = '\x0c'

/-- Python `str.strip()`. -/
def pyStrip (s : LC) : LC :=
  ((s.dropWhile isPyWs).reverse.dropWhile isPyWs).reverse

/-- Decimal digit character for a value 0–9. -/
def digitChar (n : Nat) : Char := Char.ofNat (48 + n)

def natToCharsAux : Nat → Nat → LC
  | 0, _ => []
  | fuel + 1, n =>
    if n < 10 then [digitChar n]
    else natToCharsAux fuel (n / 10) ++ [digitChar (n % 10)]

/-- Decimal rendering of a natural number (Python `str(n)` for `n ≥ 0`). -/
def natToChars (n : Nat) : LC := natToCharsAux (n + 1) n

/-- Decimal rendering of an integer (Python `str(n)`). -/
def intToChars (n : Int) : LC :=
  if n < 0 then '-' :: natToChars n.natAbs else natToChars n.natAbs

def digitsValAux : LC → Nat → Option Nat
  | [], acc => some acc
  | c :: r, acc =>
    if c.isDigit then digitsValAux r (acc * 10 + (c.toNat - 48)) else none

/-- Value of a nonempty all-digit character list, else `none`. -/
def digitsVal (s : LC) : Option Nat :=
  match s with
  | [] => none
  | _ => digitsValAux s 0

/-- Python `int(s)` on a string: strips whitespace, allows one sign, then
requires a nonempty digit run.  (Underscore digit separators, accepted by
CPython under extra rules, are not modelled; no input here uses them.) -/
def pyIntOfChars (s : LC) : Option Int :=
  match pyStrip s with
  | '-' :: r => (digitsVal r).map (fun n => -(n : Int))
  | '+' :: r => (digitsVal r).map (fun n => (n : Int))
  | t => (digitsVal t).map (fun n => (n : Int))

/-- ASCII lowercasing, as Python `str.lower()` acts on ASCII text. -/
def toLowerAscii (s : LC) : LC :=
  s.map fun c => if 'A' ≤ c ∧ c ≤ 'Z' then Char.ofNat (c.toNat + 32) else c

/-! ## Base64 (Python `base64.b64encode` / `base64.b64decode`) -/

/-- The standard base64 alphabet in index order. -/
def b64chars : LC :=
  "ABCDEFGHIJKLMNOPQRSTUVWXYZabcdefghijklmnopqrstuvwxyz0123456789+/".data

/-- Character for a 6-bit group. -/
def enc6 (n : Nat) : Char := b64chars.getD n 'A'

def dec6Aux : LC → Nat → Char → Option Nat
  | [], _, _ => none
  | c :: r, i, x => if c = x then some i else dec6Aux r (i + 1) x

/-- Index of a character in the base64 alphabet. -/
def dec6 (c : Char) : Option Nat := dec6Aux b64chars 0 c

/-- The base64 alphabet plus the padding character (used below to show
that encoded output avoids URL delimiters such as `@` and `#`). -/
def isB64Kept (c : Char) : Bool := (dec6 c).isSome || c = '='

/-- A data character of the base64 alphabet proper (not padding). -/
def isB64Data (c : Char) : Bool := (dec6 c).isSome

/-- `base64.b64encode` on a byte list (canonical padded output). -/
def b64encode : List Nat → LC
  | [] => []
  | [a] => [enc6 (a / 4), enc6 (a % 4 * 16), '=', '=']
  | [a, b] => [enc6 (a / 4), enc6 (a % 4 * 16 + b / 16), enc6 (b % 16 * 4), '=']
  | a :: b :: c :: rest =>
    enc6 (a / 4) :: enc6 (a % 4 * 16 + b / 16) :: enc6 (b % 16 * 4 + c / 64) ::
      enc6 (c % 64) :: b64encode rest

/-- The bytes of a quad terminated early by padding: two data
characters yield one byte, three yield two. -/
def b64final : List Nat → List Nat
  | [a, b] => [a * 4 + b / 16]
  | [a, b, c] => [a * 4 + b / 16, b % 16 * 16 + c / 4]
  | _ => []

/-- The three bytes of a complete quad. -/
def b64emit : List Nat → List Nat
  | [a, b, c, d] => [a * 4 + b / 16, b % 16 * 16 + c / 4, c % 4 * 64 + d]
  | _ => []

/-- The scanning loop of `binascii.a2b_base64` in non-strict mode (what
`base64.b64decode` calls): characters outside the alphabet are skipped;
a `=` is skipped while fewer than two data characters of the current
quad have been seen, and otherwise counts towards the padding run — a
complete run (two `=` after two data characters, one `=` after three,
with skipped characters allowed in between, a run a data character
resets) ends decoding, emitting the partial quad and ignoring all
remaining input.  Input that runs out mid-quad raises (the
"Incorrect padding" / "cannot be 1 more than a multiple of 4" errors). -/
def b64core : LC → List Nat → Nat → Option (List Nat)
  | [], quad, _ => if quad = [] then some [] else none
  | ch :: rest, quad, pads =>
    if ch = '=' then
      if 2 ≤ quad.length then
        if 4 ≤ quad.length + (pads + 1) then some (b64final quad)
        else b64core rest quad (pads + 1)
      else b64core rest quad pads
    else
      match dec6 ch with
      | some v =>
        if quad.length = 3 then
          (b64core rest [] 0).map (fun t => b64emit (quad ++ [v]) ++ t)
        else b64core rest (quad ++ [v]) 0
      | none => b64core rest quad pads

/-- `base64.b64decode` on a string (default non-validating mode): the
string must be pure ASCII (`str.encode("ascii")` raises otherwise),
then the `binascii` scanning loop decodes it. -/
def b64decode (s : LC) : Option (List Nat) :=
  if s.all (fun c => c.toNat < 128) then b64core s [] 0 else none

/-! ## UTF-8 (`str.encode()` / `bytes.decode("utf-8")`) -/

/-- UTF-8 encoding of one scalar value. -/
def utf8EncodeChar (c : Char) : List Nat :=
  let n := c.toNat
  if n < 128 then [n]
  else if n < 2048 then [192 + n / 64, 128 + n % 64]
  else if n < 65536 then [224 + n / 4096, 128 + n / 64 % 64, 128 + n % 64]
  else [240 + n / 262144, 128 + n / 4096 % 64, 128 + n / 64 % 64, 128 + n % 64]

/-- UTF-8 encoding of a string. -/
def utf8Encode : LC → List Nat
  | [] => []
  | c :: r => utf8EncodeChar c ++ utf8Encode r

def isCont (b : Nat) : Bool := 128 ≤ b && b < 192

def utf8DecodeAux : Nat → List Nat → Option LC
  | _, [] => some []
  | 0, _ => none
  | fuel + 1, b :: rest =>
    if b < 128 then (utf8DecodeAux fuel rest).map (Char.ofNat b :: ·)
    else if 194 ≤ b ∧ b ≤ 223 then
      match rest with
      | b2 :: r2 =>
        if isCont b2 then
          (utf8DecodeAux fuel r2).map (Char.ofNat ((b - 192) * 64 + (b2 - 128)) :: ·)
        else none
      | _ => none
    else if 224 ≤ b ∧ b ≤ 239 then
      match rest with
      | b2 :: b3 :: r3 =>
        if isCont b2 && isCont b3 then
          let n := (b - 224) * 4096 + (b2 - 128) * 64 + (b3 - 128)
          if 2048 ≤ n ∧ ¬(55296 ≤ n ∧ n ≤ 57343) then
            (utf8DecodeAux fuel r3).map (Char.ofNat n :: ·)
          else none
        else none
      | _ => none
    else if 240 ≤ b ∧ b ≤ 244 then
      match rest with
      | b2 :: b3 :: b4 :: r4 =>
        if isCont b2 && isCont b3 && isCont b4 then
          let n := (b - 240) * 262144 + (b2 - 128) * 4096 + (b3 - 128) * 64 + (b4 - 128)
          if 65536 ≤ n ∧ n ≤ 1114111 then
            (utf8DecodeAux fuel r4).map (Char.ofNat n :: ·)
          else none
        else none
      | _ => none
    else none

/-- Strict UTF-8 decoding of a byte list (Python `bytes.decode("utf-8")`,
which raises on malformed input — modelled as `none`). -/
def utf8Decode (bs : List Nat) : Option LC := utf8DecodeAux bs.length bs

/-! ## Percent-encoding (`urllib.parse.quote` / `unquote` / `unquote_plus`) -/

/-- Characters `urllib.parse.quote` leaves unescaped with the default
`safe="/"`: ASCII letters, digits, `_.-~` and `/`. -/
def isQuoteSafe (c : Char) : Bool :=
  c.isAlpha && c.toNat < 128 || c.isDigit || c = '_' || c = '.' || c = '-' || c = '~' || c = '/'

/-- Uppercase hex digit for a value 0–15 (as `quote` emits). -/
def hexUpChar (n : Nat) : Char :=
  if n < 10 then Char.ofNat (48 + n) else Char.ofNat (55 + n)

/-- `urllib.parse.quote(s, safe="/")`: UTF-8 encode, then percent-escape
every byte whose character is not in the safe set. -/
def pyQuote (s : LC) : LC :=
  (utf8Encode s).foldr
    (fun b acc =>
      if b < 128 && isQuoteSafe (Char.ofNat b) then Char.ofNat b :: acc
      else '%' :: hexUpChar (b / 16) :: hexUpChar (b % 16) :: acc)
    []

/-- Value of one hex digit character, upper or lower case. -/
def hexVal (c : Char) : Option Nat :=
  if '0' ≤ c ∧ c ≤ '9' then some (c.toNat - 48)
  else if 'a' ≤ c ∧ c ≤ 'f' then some (c.toNat - 87)
  else if 'A' ≤ c ∧ c ≤ 'F' then some (c.toNat - 55)
  else none

/-- Collect a maximal run of percent-escapes into bytes, returning the
bytes and the remainder of the input. -/
def pctRun : LC → List Nat × LC
  | '%' :: h1 :: h2 :: rest =>
    match hexVal h1, hexVal h2 with
    | some a, some b =>
      match pctRun rest with
      | (bs, r) => ((a * 16 + b) :: bs, r)
    | _, _ => ([], '%' :: h1 :: h2 :: rest)
  | s => ([], s)

/-- Decode a byte run as UTF-8; on malformed input emit U+FFFD for the
offending byte and continue (an approximation of the `errors="replace"`
handler that agrees with CPython on every input in this development,
where all escaped runs are single ASCII bytes). -/
def utf8Replace : Nat → List Nat → LC
  | _, [] => []
  | 0, _ => []
  | fuel + 1, b :: rest =>
    match utf8Decode (b :: rest) with
    | some s => s
    | none =>
      if b < 128 then Char.ofNat b :: utf8Replace fuel rest
      else Char.ofNat 65533 :: utf8Replace fuel rest

def pyUnquoteAux : Nat → LC → LC
  | _, [] => []
  | 0, s => s
  | fuel + 1, s =>
    match s with
    | '%' :: h1 :: h2 :: rest =>
      match hexVal h1, hexVal h2 with
      | some _, some _ =>
        match pctRun ('%' :: h1 :: h2 :: rest) with
        | (bs, r) => utf8Replace bs.length bs ++ pyUnquoteAux fuel r
      | _, _ => '%' :: pyUnquoteAux fuel (h1 :: h2 :: rest)
    | c :: rest => c :: pyUnquoteAux fuel rest
    | [] => []

/-- `urllib.parse.unquote`: percent-escape runs are decoded to bytes and
UTF-8 decoded; other characters pass through unchanged. -/
def pyUnquote (s : LC) : LC := pyUnquoteAux s.length s

/-- `urllib.parse.unquote_plus`: `+` becomes a space, then unquote. -/
def pyUnquotePlus (s : LC) : LC :=
  pyUnquote (s.map fun c => if c = '+' then ' ' else c)

/-! ## String replace / strip (CPython `str.replace`, `str.strip(chars)`) -/

def replaceStrAux (p r : LC) : Nat → LC → LC
  | _, [] => []
  | 0, s => s
  | fuel + 1, c :: rest =>
    if p.isPrefixOf (c :: rest) then r ++ replaceStrAux p r fuel ((c :: rest).drop p.length)
    else c :: replaceStrAux p r fuel rest

/-- Python `s.replace(p, r)` for a nonempty pattern `p`. -/
def replaceStr (p r s : LC) : LC :=
  if p.isEmpty then s else replaceStrAux p r s.length s

/-- Python `s.strip(chars)`: remove leading and trailing characters that
belong to `chars`. -/
def pyStripChars (chars : LC) (s : LC) : LC :=
  ((s.dropWhile (chars.contains ·)).reverse.dropWhile (chars.contains ·)).reverse

/-! ## UUID parsing (`uuid.UUID(s)` as used by the validator)

CPython's constructor normalises the string with
`hex.replace("urn:", "").replace("uuid:", "").strip(braces).replace("-", "")`,
requires exactly 32 remaining characters and parses them with
`int(hex, 16)`.  The model requires the 32 characters to be hex digits;
`int`'s fringe tolerances (signs, `0x` prefixes, underscores, blanks) are
not modelled — no input in this development exercises them. -/
def pythonUUIDValid (s : LC) : Bool :=
  let h1 := replaceStr "urn:".data [] s
  let h2 := replaceStr "uuid:".data [] h1
  let h3 := pyStripChars [lbrace, rbrace] h2
  let h4 := replaceStr ['-'] [] h3
  h4.length = 32 && h4.all (fun c => (hexVal c).isSome)

/-! ## JSON (`json.dumps` / `json.loads` as exercised by the codec)

The vmess payloads produced by the generator are flat objects whose
values are all strings; the decoder reads values with `dict.get`.  The
model covers flat objects with string and integer values, which is every
JSON document this code reads or writes.  (Nested values, floats and
non-object top-level documents make `json.loads` succeed in Python but
the subsequent `config.get` calls then feed the same defaults or raise —
such documents are modelled as decode failures.) -/

inductive Jv where
  | jstr : LC → Jv
  | jnum : Int → Jv
deriving DecidableEq, Repr

/-- JSON escaping of one character as `json.dumps` performs it with the
default `ensure_ascii=True` (astral characters would need surrogate
pairs; none occur in this development). -/
def jsonEscChar (c : Char) : LC :=
  if c = dquote then [bslash, dquote]
  else if c = bslash then [bslash, bslash]
  else if c = '\n' then [bslash, 'n']
  else if c = '\t' then [bslash, 't']
  else if c = '\x0d' then [bslash, 'r']
  else if c.toNat < 32 || c.toNat > 126 then
    [bslash, 'u', hexUpChar (c.toNat / 4096 % 16), hexUpChar (c.toNat / 256 % 16),
      hexUpChar (c.toNat / 16 % 16), hexUpChar (c.toNat % 16)]
  else [c]

def jsonEsc (s : LC) : LC := s.foldr (fun c acc => jsonEscChar c ++ acc) []

def jsonDumpVal : Jv → LC
  | .jstr s => dquote :: jsonEsc s ++ [dquote]
  | .jnum n => intToChars n

def jsonDumpMembers : List (LC × Jv) → LC
  | [] => []
  | [(k, v)] => dquote :: jsonEsc k ++ [dquote, ':', ' '] ++ jsonDumpVal v
  | (k, v) :: rest =>
    dquote :: jsonEsc k ++ [dquote, ':', ' '] ++ jsonDumpVal v ++ [',', ' '] ++
      jsonDumpMembers rest

/-- `json.dumps` of a flat object with the default separators
(`", "` and `": "`), preserving insertion order as CPython dicts do. -/
def jsonDumps (obj : List (LC × Jv)) : LC :=
  lbrace :: jsonDumpMembers obj ++ [rbrace]

def jsonWs (c : Char) : Bool := c = ' ' || c = '\t' || c = '\n' || c = '\x0d'

def skipWs (s : LC) : LC := s.dropWhile jsonWs

/-- Decode one escape sequence after a backslash: the escapes
`json.dumps` emits.  Returns the character and the remaining input. -/
def jsonEscDecode : LC → Option (Char × LC)
  | [] => none
  | e :: r2 =>
    if e = dquote then some (dquote, r2)
    else if e = bslash then some (bslash, r2)
    else if e = '/' then some ('/', r2)
    else if e = 'n' then some ('\n', r2)
    else if e = 't' then some ('\t', r2)
    else if e = 'r' then some ('\x0d', r2)
    else if e = 'b' then some ('\x08', r2)
    else if e = 'f' then some ('\x0c', r2)
    else if e = 'u' then
      match r2 with
      | h1 :: h2 :: h3 :: h4 :: r3 =>
        match hexVal h1, hexVal h2, hexVal h3, hexVal h4 with
        | some a, some b, some c, some d =>
          let n := a * 4096 + b * 256 + c * 16 + d
          if 55296 ≤ n ∧ n ≤ 57343 then none
          else some (Char.ofNat n, r3)
        | _, _, _, _ => none
      | _ => none
    else none

/-- Parse one JSON string body after the opening quote: plain characters
and escape sequences.  Returns the string and remainder. -/
def parseJsonStr : Nat → LC → Option (LC × LC)
  | _, [] => none
  | 0, _ => none
  | fuel + 1, c :: rest =>
    if c = dquote then some ([], rest)
    else if c = bslash then
      match jsonEscDecode rest with
      | some (ch, r2) => (parseJsonStr fuel r2).map (fun (s, r) => (ch :: s, r))
      | none => none
    else if c.toNat < 32 then none
    else (parseJsonStr fuel rest).map (fun (s, r) => (c :: s, r))

/-- Parse a JSON value: a string or an integer numeral. -/
def parseJsonVal (fuel : Nat) (s : LC) : Option (Jv × LC) :=
  match s with
  | [] => none
  | c :: rest =>
    if c = dquote then (parseJsonStr fuel rest).map (fun (t, r) => (Jv.jstr t, r))
    else if c = '-' then
      match rest.takeWhile (·.isDigit), rest.dropWhile (·.isDigit) with
      | [], _ => none
      | ds, r =>
        (digitsVal ds).map (fun n => (Jv.jnum (-(n : Int)), r))
    else if c.isDigit then
      match (c :: rest).takeWhile (·.isDigit), (c :: rest).dropWhile (·.isDigit) with
      | ds, r => (digitsVal ds).map (fun n => (Jv.jnum (n : Int), r))
    else none

def parseJsonMembers : Nat → LC → Option (List (LC × Jv) × LC)
  | 0, _ => none
  | fuel + 1, s =>
    match skipWs s with
    | c :: rest =>
      if c = dquote then
        match parseJsonStr fuel rest with
        | some (k, r1) =>
          match skipWs r1 with
          | ':' :: r2 =>
            match parseJsonVal fuel (skipWs r2) with
            | some (v, r3) =>
              match skipWs r3 with
              | ',' :: r4 =>
                (parseJsonMembers fuel r4).map (fun (ms, r) => ((k, v) :: ms, r))
              | c2 :: r4 =>
                if c2 = rbrace then some ([(k, v)], r4) else none
              | [] => none
            | none => none
          | _ => none
        | none => none
      else none
    | [] => none

/-- `json.loads` restricted to flat objects (see the note above): parses
an object and requires only trailing whitespace afterwards. -/
def parseJsonObj (s : LC) : Option (List (LC × Jv)) :=
  match skipWs s with
  | c :: rest =>
    if c = lbrace then
      match skipWs rest with
      | c2 :: r2 =>
        if c2 = rbrace then
          if (skipWs r2).isEmpty then some [] else none
        else
          match parseJsonMembers (s.length + 1) rest with
          | some (ms, r) => if (skipWs r).isEmpty then some ms else none
          | none => none
      | [] => none
    else none
  | [] => none

/-- `dict.get` on a parsed JSON object: CPython keeps the last value for
a duplicated key, so lookup runs over the reversed member list. -/
def pyGet (obj : List (LC × Jv)) (k : LC) : Option Jv :=
  (obj.reverse.find? (fun m => m.fst = k)).map Prod.snd

/-- `dict.get` with a default. -/
def pyGetD (obj : List (LC × Jv)) (k : LC) (d : Jv) : Jv := (pyGet obj k).getD d

/-! ## `urllib.parse.urlparse` (the subset `_parse_trojan_url` uses) -/

structure UrlParts where
  scheme : LC
  netloc : LC
  path : LC
  query : LC
  fragment : LC
deriving DecidableEq, Repr

def isSchemeChar (c : Char) : Bool :=
  c.isAlpha && c.toNat < 128 || c.isDigit || c = '+' || c = '-' || c = '.'

/-- `urlsplit`: peel the scheme at the first `:`, then the netloc (after
`//`, up to the first of `/ ? #`), then the fragment at the first `#`,
then the query at the first `?`.  (Bracketed IPv6 hosts are not
modelled; none occur here.) -/
def pyUrlsplit (s : LC) : UrlParts :=
  let pre := s.takeWhile (· ≠ ':')
  let hasScheme := pre.length < s.length ∧ pre ≠ [] ∧
    (pre.headD 'a').isAlpha ∧ pre.all isSchemeChar
  let scheme := if hasScheme then toLowerAscii pre else []
  let rest := if hasScheme then s.drop (pre.length + 1) else s
  let nlSplit :=
    match rest with
    | '/' :: '/' :: r =>
      (r.takeWhile (fun c => ¬(c = '/' ∨ c = '?' ∨ c = '#')),
       r.dropWhile (fun c => ¬(c = '/' ∨ c = '?' ∨ c = '#')))
    | r => ([], r)
  let netloc := nlSplit.fst
  let afterNl := nlSplit.snd
  let beforeFrag := afterNl.takeWhile (· ≠ '#')
  let fragment :=
    if beforeFrag.length < afterNl.length then afterNl.drop (beforeFrag.length + 1) else []
  let path := beforeFrag.takeWhile (· ≠ '?')
  let query :=
    if path.length < beforeFrag.length then beforeFrag.drop (path.length + 1) else []
  { scheme := scheme, netloc := netloc, path := path, query := query, fragment := fragment }

/-- `str.rpartition(ch)` restricted to what `_hostinfo` needs: the part
before the last occurrence (`none` when absent) and the part after. -/
def rpartitionChar (ch : Char) (s : LC) : Option LC × LC :=
  let revAfter := s.reverse.takeWhile (· ≠ ch)
  if revAfter.length = s.length then (none, s)
  else (some (s.take (s.length - revAfter.length - 1)), revAfter.reverse)

/-- `SplitResult.username`: the userinfo (before the last `@` of the
netloc) up to its first `:`; `none` when the netloc has no `@`. -/
def urlUsername (p : UrlParts) : Option LC :=
  ((rpartitionChar '@' p.netloc).fst).map (List.takeWhile (· ≠ ':'))

/-- `SplitResult.hostname`: the host part lowercased, `none` if empty. -/
def urlHostname (p : UrlParts) : Option LC :=
  let hostinfo := (rpartitionChar '@' p.netloc).snd
  let h := hostinfo.takeWhile (· ≠ ':')
  if h = [] then none else some (toLowerAscii h)

/-- `SplitResult.port`: `.ok none` when absent or empty, `.ok (some n)`
for an all-digit value `0 ≤ n ≤ 65535`, and `.error` (a raised
`ValueError`) otherwise. -/
def urlPort (p : UrlParts) : Except Unit (Option Nat) :=
  let hostinfo := (rpartitionChar '@' p.netloc).snd
  let h := hostinfo.takeWhile (· ≠ ':')
  if h.length = hostinfo.length then .ok none
  else
    let ds := hostinfo.drop (h.length + 1)
    if ds = [] then .ok none
    else if ds.all (·.isDigit) then
      match digitsVal ds with
      | some n => if n ≤ 65535 then .ok (some n) else .error ()
      | none => .error ()
    else .error ()

/-- `urllib.parse.parse_qs` with default options: split the query on `&`,
skip empty chunks, chunks without `=` and chunks with an empty value,
and `unquote_plus` names and values; pairs are kept in order. -/
def parseQs (q : LC) : List (LC × LC) :=
  if q = [] then []
  else
    (splitOnChar '&' q).foldr
      (fun part acc =>
        if part = [] then acc
        else
          let name := part.takeWhile (· ≠ '=')
          if name.length = part.length then acc
          else
            let value := part.drop (name.length + 1)
            if value = [] then acc
            else (pyUnquotePlus name, pyUnquotePlus value) :: acc)
      []

/-- First value recorded for a key by `parse_qs` (`qs.get(k, d)[0]`). -/
def qsFirst (q : LC) (k : LC) : Option LC :=
  ((parseQs q).find? (fun p => p.fst = k)).map Prod.snd

/-! ## The canonical decoded record (the dicts the three parsers build) -/

/-- Rendering Python applies inside an f-string (`str()` of a dict
value): strings unchanged, integers in decimal. -/
def jvDisplay : Jv → LC
  | .jstr s => s
  | .jnum n => intToChars n

/-- `str()` of an optional hostname, where Python renders `None`. -/
def optDisplay (o : Option LC) : LC := o.getD "None".data

/-- One parsed proxy server, one constructor per parser since the three
parsers build dicts of different shapes.  vmess fields that are copied
straight out of the JSON keep the dynamic `Jv` type of the dict value. -/
inductive ProxyRecord where
  | ss (host : LC) (port : Nat) (method password name : LC)
  | vm (host : Jv) (port : Int) (uuid : Jv) (alterId : Int)
      (security network path hostHeader : Jv) (tls : Bool) (name : Jv)
  | tr (host : Option LC) (port : Nat) (password : Option LC)
      (sni : Option LC) (name : LC)
deriving DecidableEq, Repr

/-- `_parse_shadowsocks_url` (auto_updater.py:162).  The regex
`ss://([^@]+)@([^:]+):(\d+)(?:#(.+))?` is matched exactly: group 1 runs
to the first `@`, group 2 to the first `:` after it, group 3 is a
maximal nonempty digit run, and the optional remark group takes the rest
of the line when a `#` with at least one following (non-newline)
character is present; `re.match` ignores trailing text.  A base64,
UTF-8 or `split(":")` failure returns `None`. -/
def parseSsUrl (url : LC) : Option ProxyRecord :=
  match url with
  | 's' :: 's' :: ':' :: '/' :: '/' :: rest =>
    let auth := rest.takeWhile (· ≠ '@')
    if auth = [] ∨ auth.length = rest.length then none
    else
      let r1 := rest.drop (auth.length + 1)
      let host := r1.takeWhile (· ≠ ':')
      if host = [] ∨ host.length = r1.length then none
      else
        let r2 := r1.drop (host.length + 1)
        let ds := r2.takeWhile (·.isDigit)
        if ds = [] then none
        else
          let r3 := r2.drop ds.length
          let name : Option LC :=
            match r3 with
            | '#' :: f =>
              let nm := f.takeWhile (· ≠ '\n')
              if nm = [] then none else some nm
            | _ => none
          match (b64decode auth).bind utf8Decode with
          | none => none
          | some dec =>
            let method := dec.takeWhile (· ≠ ':')
            if method.length = dec.length then none
            else
              let password := dec.drop (method.length + 1)
              match digitsVal ds with
              | some port =>
                some (.ss host port method password
                  (match name with
                   | some nm => pyUnquote nm
                   | none => "SS-".data ++ host))
              | none => none
  | _ => none

/-- `int()` applied to a dict value: integers pass through, strings are
parsed, anything else raises. -/
def pyIntOfJv : Jv → Option Int
  | .jnum n => some n
  | .jstr s => pyIntOfChars s

/-- `_parse_vmess_url` (auto_updater.py:185): strip the scheme, base64-
and UTF-8-decode, parse the JSON object, then fill every field with
`config.get` defaults — including the nominally required `add`, `port`
and `id`. -/
def parseVmessUrl (url : LC) : Option ProxyRecord :=
  if "vmess://".data.isPrefixOf url then
    match (b64decode (url.drop 8)).bind utf8Decode with
    | none => none
    | some payload =>
      match parseJsonObj payload with
      | none => none
      | some obj =>
        match pyIntOfJv (pyGetD obj "port".data (.jnum 0)),
              pyIntOfJv (pyGetD obj "aid".data (.jnum 0)) with
        | some port, some aid =>
          some (.vm
            (pyGetD obj "add".data (.jstr []))
            port
            (pyGetD obj "id".data (.jstr []))
            aid
            (pyGetD obj "scy".data (.jstr "auto".data))
            (pyGetD obj "net".data (.jstr "tcp".data))
            (pyGetD obj "path".data (.jstr "/".data))
            (pyGetD obj "host".data (.jstr []))
            (pyGetD obj "tls".data (.jstr []) = .jstr "tls".data)
            (pyGetD obj "ps".data
              (.jstr ("VMess-".data ++ jvDisplay (pyGetD obj "add".data (.jstr []))))))
        | _, _ => none
  else none

/-- `_parse_trojan_url` (auto_updater.py:212): `urlparse`, reject a
non-`trojan` scheme, then read username/hostname/port/query/fragment.
Accessing `parsed.port` can raise (propagating to the caller's catch,
hence `none` here); a port of `0` or `None` falls back to 443 through
`parsed.port or 443`. -/
def parseTrojanUrl (url : LC) : Option ProxyRecord :=
  let p := pyUrlsplit url
  if p.scheme ≠ "trojan".data then none
  else
    match urlPort p with
    | .error _ => none
    | .ok portOpt =>
      let port := match portOpt with
        | none => 443
        | some 0 => 443
        | some n => n
      let host := urlHostname p
      some (.tr host port (urlUsername p)
        (match qsFirst p.query "sni".data with
         | some v => some v
         | none => host)
        (if p.fragment ≠ [] then pyUnquote p.fragment
         else "Trojan-".data ++ optDisplay host))

/-! ## Config generator (scripts/proxy_generator.py)

Server entries are Python dicts; `server["host"]` etc. raise `KeyError`
when the key is absent, so every field is optional and access is through
`dget`, which models a raised `KeyError` as `Except.error`. -/

structure PortsDict where
  shadowsocks : Option Nat
  vmess : Option Nat
  trojan : Option Nat
deriving DecidableEq, Repr

structure SDict where
  host : Option LC
  country : Option LC
  city : Option LC
  ports : Option PortsDict
deriving DecidableEq, Repr

/-- Dict item access: `KeyError` on a missing key. -/
def dget (o : Option α) : Except Unit α :=
  match o with
  | some a => .ok a
  | none => .error ()

/-- `ProxyGenerator._load_server_list`: the three sample servers. -/
def sampleServers : List SDict :=
  [{ host := some "us1.example.com".data, country := some "US".data,
     city := some "New York".data,
     ports := some { shadowsocks := some 8388, vmess := some 10086, trojan := some 443 } },
   { host := some "uk1.example.com".data, country := some "GB".data,
     city := some "London".data,
     ports := some { shadowsocks := some 8388, vmess := some 10086, trojan := some 443 } },
   { host := some "jp1.example.com".data, country := some "JP".data,
     city := some "Tokyo".data,
     ports := some { shadowsocks := some 8388, vmess := some 10086, trojan := some 443 } }]

/-- `string.ascii_letters + string.digits + "!@#$%^&*"`, the alphabet
`_generate_password` draws from. -/
def pwdChars : LC :=
  "abcdefghijklmnopqrstuvwxyzABCDEFGHIJKLMNOPQRSTUVWXYZ0123456789!@#$%^&*".data

/-- `_generate_password(length)`: `length` independent uniform choices
from `pwdChars`; the choice stream is the injected randomness source. -/
def genPassword (len : Nat) (rng : Nat → Nat) : LC :=
  (List.range len).map (fun i => pwdChars.getD (rng i % pwdChars.length) '!')

def hexLowChars : LC := "0123456789abcdef".data

/-- Nibble `i` of a version-4 UUID: the version nibble (position 12) is
`4`, the variant nibble (position 16) is in 8–b, the rest are random. -/
def uuidDigit (rng : Nat → Nat) (i : Nat) : Char :=
  if i = 12 then '4'
  else if i = 16 then hexLowChars.getD (8 + rng i % 4) '8'
  else hexLowChars.getD (rng i % 16) '0'

/-- `str(uuid.uuid4())`: 32 random hex nibbles with the version nibble
fixed to 4 and the variant nibble in 8–b, rendered 8-4-4-4-12. -/
def genUUID4 (rng : Nat → Nat) : LC :=
  ((List.range 8).map (uuidDigit rng)) ++ '-' ::
    ((List.range 4).map (fun j => uuidDigit rng (8 + j))) ++ '-' ::
    ((List.range 4).map (fun j => uuidDigit rng (12 + j))) ++ '-' ::
    ((List.range 4).map (fun j => uuidDigit rng (16 + j))) ++ '-' ::
    ((List.range 12).map (fun j => uuidDigit rng (20 + j)))

structure SSConfig where
  server : LC
  serverPort : Nat
  password : LC
  method : LC
  plugin : LC
  pluginOpts : LC
  remarks : LC
  timeout : Nat
deriving DecidableEq, Repr

/-- `generate_shadowsocks_config` (proxy_generator.py:47). -/
def generateShadowsocksConfig (s : SDict) (rng : Nat → Nat) :
    Except Unit SSConfig := do
  let password := genPassword 16 rng
  let host ← dget s.host
  let ports ← dget s.ports
  let ssPort ← dget ports.shadowsocks
  let country ← dget s.country
  let city ← dget s.city
  .ok { server := host, serverPort := ssPort, password := password,
        method := "chacha20-ietf-poly1305".data,
        plugin := "v2ray-plugin".data,
        pluginOpts := "server;tls;host=".data ++ host,
        remarks := "SS-".data ++ country ++ "-".data ++ city,
        timeout := 300 }

/-- `generate_vmess_config` (proxy_generator.py:62): the config is the
JSON object later serialised by the exporters, in insertion order. -/
def generateVmessConfig (s : SDict) (rng : Nat → Nat) :
    Except Unit (List (LC × Jv)) := do
  let userId := genUUID4 rng
  let host ← dget s.host
  let ports ← dget s.ports
  let vmPort ← dget ports.vmess
  let country ← dget s.country
  let city ← dget s.city
  .ok [("v".data, .jstr "2".data),
       ("ps".data, .jstr ("VMess-".data ++ country ++ "-".data ++ city)),
       ("add".data, .jstr host),
       ("port".data, .jstr (natToChars vmPort)),
       ("id".data, .jstr userId),
       ("aid".data, .jstr "0".data),
       ("scy".data, .jstr "auto".data),
       ("net".data, .jstr "ws".data),
       ("type".data, .jstr "none".data),
       ("host".data, .jstr host),
       ("path".data, .jstr "/vmess".data),
       ("tls".data, .jstr "tls".data),
       ("sni".data, .jstr host),
       ("alpn".data, .jstr "h2,http/1.1".data)]

structure TrojanConfig where
  password : LC
  remoteAddr : LC
  remotePort : Nat
  sslEnabled : Bool
  sslSni : LC
  sslAlpn : List LC
  sslReuseSession : Bool
  sslSessionTicket : Bool
  tcpNoDelay : Bool
  tcpKeepAlive : Bool
  remarks : LC
deriving DecidableEq, Repr

/-- `generate_trojan_config` (proxy_generator.py:83). -/
def generateTrojanConfig (s : SDict) (rng : Nat → Nat) :
    Except Unit TrojanConfig := do
  let password := genPassword 32 rng
  let host ← dget s.host
  let ports ← dget s.ports
  let trPort ← dget ports.trojan
  let country ← dget s.country
  let city ← dget s.city
  .ok { password := password, remoteAddr := host, remotePort := trPort,
        sslEnabled := true, sslSni := host,
        sslAlpn := ["h2".data, "http/1.1".data],
        sslReuseSession := true, sslSessionTicket := false,
        tcpNoDelay := true, tcpKeepAlive := true,
        remarks := "Trojan-".data ++ country ++ "-".data ++ city }

/-- The shadowsocks line `export_universal_subscription` /
`export_shadowsocks_subscription` build from a generated config. -/
def ssUriOfConfig (c : SSConfig) : LC :=
  "ss://".data ++ b64encode (utf8Encode (c.method ++ ':' :: c.password)) ++
    '@' :: c.server ++ ':' :: natToChars c.serverPort ++ '#' :: pyQuote c.remarks

/-- The vmess line the exporters build: base64 of the JSON dump. -/
def vmessUriOfConfig (obj : List (LC × Jv)) : LC :=
  "vmess://".data ++ b64encode (utf8Encode (jsonDumps obj))

/-- The trojan line `export_universal_subscription` builds. -/
def trojanUriOfConfig (c : TrojanConfig) : LC :=
  "trojan://".data ++ c.password ++ '@' :: c.remoteAddr ++
    ':' :: natToChars c.remotePort ++ "?sni=".data ++ c.sslSni ++
    '#' :: pyQuote c.remarks

def joinLines : List LC → LC
  | [] => []
  | [l] => l
  | l :: rest => l ++ '\n' :: joinLines rest

/-- The per-server line triples of `export_universal_subscription`:
for server `i` a shadowsocks, a vmess and a trojan line, in that order.
`rngSS i`, `rngV i`, `rngT i` are the random streams consumed. -/
def universalLines (rngSS rngV rngT : Nat → Nat → Nat) :
    List SDict → Nat → Except Unit (List LC)
  | [], _ => .ok []
  | s :: rest, i => do
    let ssC ← generateShadowsocksConfig s (rngSS i)
    let vmC ← generateVmessConfig s (rngV i)
    let trC ← generateTrojanConfig s (rngT i)
    let tail ← universalLines rngSS rngV rngT rest (i + 1)
    .ok (ssUriOfConfig ssC :: vmessUriOfConfig vmC :: trojanUriOfConfig trC :: tail)

/-- `export_universal_subscription` (proxy_generator.py:320): the lines
of all servers joined with newlines and base64-encoded as a whole. -/
def exportUniversalSubscription (servers : List SDict)
    (rngSS rngV rngT : Nat → Nat → Nat) : Except Unit LC := do
  let lines ← universalLines rngSS rngV rngT servers 0
  .ok (b64encode (utf8Encode (joinLines lines)))

/-! ## Validator (tests/config_validator.py)

Each `_validate_*` method only appends messages to the instance lists
`self.errors` / `self.warnings` / `self.info`.  The model computes each
method's findings as a triple of lists in the order the source appends
them; the stateful entry points then concatenate those findings onto the
instance state carried explicitly. -/

structure Findings where
  errors : List LC
  warnings : List LC
  info : List LC
deriving DecidableEq, Repr

def Findings.empty : Findings := { errors := [], warnings := [], info := [] }

def Findings.app (a b : Findings) : Findings :=
  { errors := a.errors ++ b.errors, warnings := a.warnings ++ b.warnings,
    info := a.info ++ b.info }

def errF (m : LC) : Findings := { errors := [m], warnings := [], info := [] }

def warnF (m : LC) : Findings := { errors := [], warnings := [m], info := [] }

def infoF (m : LC) : Findings := { errors := [], warnings := [], info := [m] }

/-- Quote a word in single quotes, as the f-strings do. -/
def sqw (s : LC) : LC := squote :: s ++ [squote]

/-- Python lexicographic string comparison (`<` on str), used by the
`min_version` check. -/
def lexLt : LC → LC → Bool
  | [], [] => false
  | [], _ :: _ => true
  | _ :: _, [] => false
  | a :: as', b :: bs' =>
    if a.toNat < b.toNat then true
    else if b.toNat < a.toNat then false
    else lexLt as' bs'

structure Transport where
  ty : Option LC
  path : Option LC
  host : Option LC
  headers : List (LC × LC)
deriving DecidableEq, Repr

structure RealityCfg where
  enabled : Option Bool
  publicKey : Option LC
  shortId : Option LC
deriving DecidableEq, Repr

structure TlsCfg where
  enabled : Option Bool
  serverName : Option LC
  minVersion : Option LC
  alpn : Option (List LC)
  reality : Option RealityCfg
deriving DecidableEq, Repr

structure Outbound where
  tag : Option LC
  ty : Option LC
  server : Option LC
  serverPort : Option Nat
  uuid : Option LC
  password : Option LC
  method : Option LC
  security : Option LC
  alterId : Option Int
  flow : Option LC
  globalPadding : Option Bool
  authenticatedLength : Option Bool
  plugin : Option LC
  pluginOpts : Option LC
  transport : Option Transport
  tls : Option TlsCfg
  upMbps : Option Int
  downMbps : Option Int
  congestionControl : Option LC
deriving DecidableEq, Repr

/-- An outbound dict with no keys at all. -/
def Outbound.none0 : Outbound :=
  { tag := none, ty := none, server := none, serverPort := none, uuid := none,
    password := none, method := none, security := none, alterId := none,
    flow := none, globalPadding := none, authenticatedLength := none,
    plugin := none, pluginOpts := none, transport := none, tls := none,
    upMbps := none, downMbps := none, congestionControl := none }

/-- `_validate_transport` (config_validator.py:232). -/
def validateTransport (i : Nat) (t : Transport) : Findings :=
  match t.ty with
  | none => errF ("Outbound ".data ++ natToChars i ++ ": transport missing ".data ++ sqw "type".data)
  | some ty =>
    if ty = "ws".data then
      (if t.path.isNone then
        warnF ("Outbound ".data ++ natToChars i ++ ": WebSocket missing path".data)
       else Findings.empty).app
      (if (t.headers.find? (fun h => h.fst = "Host".data)).isNone then
        warnF ("Outbound ".data ++ natToChars i ++ ": WebSocket missing Host header".data)
       else Findings.empty)
    else if ty = "http".data then
      (if t.host.isNone then
        warnF ("Outbound ".data ++ natToChars i ++ ": HTTP transport missing host".data)
       else Findings.empty).app
      (if t.path.isNone then
        warnF ("Outbound ".data ++ natToChars i ++ ": HTTP transport missing path".data)
       else Findings.empty)
    else Findings.empty

/-- `_validate_tls` (config_validator.py:255). -/
def validateTlsBlock (i : Nat) (t : TlsCfg) : Findings :=
  if ¬(t.enabled.getD false) then Findings.empty
  else
    ((if t.serverName.isNone then
        warnF ("Outbound ".data ++ natToChars i ++ ": TLS missing server_name".data)
      else Findings.empty).app
     (match t.minVersion with
      | some v =>
        if lexLt v "1.2".data then
          warnF ("Outbound ".data ++ natToChars i ++ ": TLS version too old".data)
        else Findings.empty
      | none => Findings.empty)).app
    (match t.alpn with
     | some alpn =>
       if ¬(alpn.contains "h2".data || alpn.contains "http/1.1".data) then
         warnF ("Outbound ".data ++ natToChars i ++ ": consider adding h2 to ALPN".data)
       else Findings.empty
     | none => Findings.empty)

/-- `_validate_reality` (config_validator.py:275). -/
def validateReality (i : Nat) (r : RealityCfg) : Findings :=
  (((if r.publicKey.isNone then
      errF ("Reality outbound ".data ++ natToChars i ++ ": missing ".data ++ sqw "public_key".data)
     else Findings.empty).app
    (if r.shortId.isNone then
      errF ("Reality outbound ".data ++ natToChars i ++ ": missing ".data ++ sqw "short_id".data)
     else Findings.empty)).app
   (match r.publicKey with
    | some pk =>
      if (b64decode pk).isNone then
        errF ("Reality outbound ".data ++ natToChars i ++ ": invalid public key format".data)
      else Findings.empty
    | none => Findings.empty)).app
  (match r.shortId with
   | some sid =>
     if ¬(sid.length ≤ 16 && sid.all (fun c => c.isDigit || ('a' ≤ c ∧ c ≤ 'f'))) then
       errF ("Reality outbound ".data ++ natToChars i ++ ": invalid short_id format".data)
     else Findings.empty
   | none => Findings.empty)

/-- Missing-field errors for a `required_fields` loop. -/
def missingFields (proto : LC) (i : Nat) (fields : List (LC × Bool)) : Findings :=
  fields.foldr
    (fun f acc =>
      (if ¬f.snd then
        errF (proto ++ " outbound ".data ++ natToChars i ++ ": missing ".data ++ sqw f.fst)
       else Findings.empty).app acc)
    Findings.empty

/-- `_validate_vmess` (config_validator.py:94). -/
def validateVmess (i : Nat) (c : Outbound) : Findings :=
  ((((missingFields "VMess".data i
      [("server".data, c.server.isSome), ("server_port".data, c.serverPort.isSome),
       ("uuid".data, c.uuid.isSome)]).app
     (match c.uuid with
      | some u =>
        if ¬pythonUUIDValid u then
          errF ("VMess outbound ".data ++ natToChars i ++ ": invalid UUID format".data)
        else Findings.empty
      | none => Findings.empty)).app
    ((match c.security with
      | some s =>
        if ¬["auto".data, "aes-128-gcm".data, "chacha20-poly1305".data, "none".data].contains s then
          warnF ("VMess outbound ".data ++ natToChars i ++ ": unusual security method ".data ++ sqw s)
        else Findings.empty
      | none => Findings.empty).app
     (match c.alterId with
      | some a =>
        if a ≠ 0 then
          warnF ("VMess outbound ".data ++ natToChars i ++ ": alter_id should be 0 for security".data)
        else Findings.empty
      | none => Findings.empty))).app
   (match c.transport with
    | some t => validateTransport i t
    | none => Findings.empty)).app
  (match c.tls with
   | some t => validateTlsBlock i t
   | none => Findings.empty)

/-- `_validate_vless` (config_validator.py:127). -/
def validateVless (i : Nat) (c : Outbound) : Findings :=
  (((missingFields "VLESS".data i
      [("server".data, c.server.isSome), ("server_port".data, c.serverPort.isSome),
       ("uuid".data, c.uuid.isSome)]).app
    (match c.uuid with
     | some u =>
       if ¬pythonUUIDValid u then
         errF ("VLESS outbound ".data ++ natToChars i ++ ": invalid UUID format".data)
       else Findings.empty
     | none => Findings.empty)).app
   (match c.flow with
    | some f =>
      if ¬[([] : LC), "xtls-rprx-vision".data, "xtls-rprx-vision-udp443".data].contains f then
        warnF ("VLESS outbound ".data ++ natToChars i ++ ": unusual flow ".data ++ sqw f)
      else Findings.empty
    | none => Findings.empty)).app
  (match c.tls with
   | some t =>
     match t.reality with
     | some r => if r.enabled.getD false then validateReality i r else Findings.empty
     | none => Findings.empty
   | none => Findings.empty)

/-- `_validate_shadowsocks` (config_validator.py:152). -/
def validateShadowsocks (i : Nat) (c : Outbound) : Findings :=
  ((missingFields "Shadowsocks".data i
     [("server".data, c.server.isSome), ("server_port".data, c.serverPort.isSome),
      ("method".data, c.method.isSome), ("password".data, c.password.isSome)]).app
   (match c.method with
    | some m =>
      if ¬["chacha20-ietf-poly1305".data, "aes-256-gcm".data, "aes-128-gcm".data,
           "2022-blake3-aes-256-gcm".data, "2022-blake3-chacha20-poly1305".data].contains m then
        warnF ("Shadowsocks outbound ".data ++ natToChars i ++ ": consider using AEAD cipher".data)
      else Findings.empty
    | none => Findings.empty)).app
  (match c.password with
   | some p =>
     if p.length < 8 then
       warnF ("Shadowsocks outbound ".data ++ natToChars i ++ ": password too short".data)
     else Findings.empty
   | none => Findings.empty)

/-- `_validate_trojan` (config_validator.py:178).  Note the error text:
"TLS is required". -/
def validateTrojan (i : Nat) (c : Outbound) : Findings :=
  ((missingFields "Trojan".data i
     [("server".data, c.server.isSome), ("server_port".data, c.serverPort.isSome),
      ("password".data, c.password.isSome)]).app
   (match c.password with
    | some p =>
      if p.length < 16 then
        warnF ("Trojan outbound ".data ++ natToChars i ++
          ": password should be at least 16 characters".data)
      else Findings.empty
    | none => Findings.empty)).app
  (if (match c.tls with
       | some t => !(t.enabled.getD false)
       | none => true) then
    errF ("Trojan outbound ".data ++ natToChars i ++ ": TLS is required".data)
   else Findings.empty)

/-- `_validate_hysteria` (config_validator.py:196). -/
def validateHysteria (i : Nat) (c : Outbound) : Findings :=
  ((missingFields "Hysteria".data i
     [("server".data, c.server.isSome), ("server_port".data, c.serverPort.isSome)]).app
   (match c.upMbps with
    | some v =>
      if v ≤ 0 then
        warnF ("Hysteria outbound ".data ++ natToChars i ++ ": invalid up_mbps value".data)
      else Findings.empty
    | none => Findings.empty)).app
  (match c.downMbps with
   | some v =>
     if v ≤ 0 then
       warnF ("Hysteria outbound ".data ++ natToChars i ++ ": invalid down_mbps value".data)
     else Findings.empty
   | none => Findings.empty)

/-- `_validate_tuic` (config_validator.py:211). -/
def validateTuic (i : Nat) (c : Outbound) : Findings :=
  ((missingFields "TUIC".data i
     [("server".data, c.server.isSome), ("server_port".data, c.serverPort.isSome),
      ("uuid".data, c.uuid.isSome), ("password".data, c.password.isSome)]).app
   (match c.uuid with
    | some u =>
      if ¬pythonUUIDValid u then
        errF ("TUIC outbound ".data ++ natToChars i ++ ": invalid UUID format".data)
      else Findings.empty
    | none => Findings.empty)).app
  (match c.congestionControl with
   | some cc =>
     if ¬["cubic".data, "new_reno".data, "bbr".data].contains cc then
       warnF ("TUIC outbound ".data ++ natToChars i ++ ": unusual congestion control".data)
     else Findings.empty
   | none => Findings.empty)

/-- `_validate_outbound` (config_validator.py:69): dispatch on `type`. -/
def validateOutbound (i : Nat) (c : Outbound) : Findings :=
  match c.ty with
  | none => errF ("Outbound ".data ++ natToChars i ++ ": missing ".data ++
      sqw "type".data ++ " field".data)
  | some ty =>
    if ty = "vmess".data then validateVmess i c
    else if ty = "vless".data then validateVless i c
    else if ty = "shadowsocks".data then validateShadowsocks i c
    else if ty = "trojan".data then validateTrojan i c
    else if ty = "hysteria".data then validateHysteria i c
    else if ty = "tuic".data then validateTuic i c
    else if ty = "direct".data ∨ ty = "block".data ∨ ty = "dns".data then Findings.empty
    else warnF ("Outbound ".data ++ natToChars i ++ ": unknown type ".data ++ sqw ty)

def validateOutboundsGo : Nat → List Outbound → Findings
  | _, [] => Findings.empty
  | i, c :: rest => (validateOutbound i c).app (validateOutboundsGo (i + 1) rest)

/-- `_validate_outbounds` (config_validator.py:60). -/
def validateOutbounds (obs : List Outbound) : Findings :=
  if obs = [] then errF "No outbounds configured".data
  else validateOutboundsGo 0 obs

structure Inbound where
  ty : Option LC
  listen : Option LC
  listenPort : Option Nat
deriving DecidableEq, Repr

structure RouteRule where
  outbound : Option LC
  extra : List LC
deriving DecidableEq, Repr

/-- A route dict: the keys the validator reads, plus the names of any
other keys present (these only affect the dict's truthiness). -/
structure Route where
  rules : Option (List RouteRule)
  final : Option LC
  extra : List LC
deriving DecidableEq, Repr

inductive DnsServer where
  | obj (tag : Option LC) (address : Option LC) (detour : Option LC)
  | str (s : LC)
deriving DecidableEq, Repr

/-- A dns dict: the `servers` key plus the names of any other keys. -/
structure Dns where
  servers : Option (List DnsServer)
  extra : List LC
deriving DecidableEq, Repr

structure SingboxConfig where
  inbounds : Option (List Inbound)
  outbounds : Option (List Outbound)
  route : Option Route
  dns : Option Dns
deriving DecidableEq, Repr

def validateInboundsGo : Nat → List Inbound → Findings
  | _, [] => Findings.empty
  | i, inb :: rest =>
    ((if inb.ty.isNone then
        errF ("Inbound ".data ++ natToChars i ++ ": missing ".data ++
          sqw "type".data ++ " field".data)
      else Findings.empty).app
     (if inb.listenPort.isNone then
        errF ("Inbound ".data ++ natToChars i ++ ": missing ".data ++
          sqw "listen_port".data ++ " field".data)
      else Findings.empty)).app
    (validateInboundsGo (i + 1) rest)

/-- `_validate_singbox_structure` (config_validator.py:44). -/
def validateSingboxStructure (cfg : SingboxConfig) : Findings :=
  (((if cfg.inbounds.isNone then
      errF "Missing required field: inbounds".data
     else Findings.empty).app
    (if cfg.outbounds.isNone then
      errF "Missing required field: outbounds".data
     else Findings.empty)).app
   (match cfg.inbounds with
    | some inbs => validateInboundsGo 0 inbs
    | none => Findings.empty))

def validateRulesGo : Nat → List RouteRule → Findings
  | _, [] => Findings.empty
  | i, r :: rest =>
    (if r.outbound.isNone then
      errF ("Routing rule ".data ++ natToChars i ++ ": missing outbound".data)
     else Findings.empty).app (validateRulesGo (i + 1) rest)

/-- Truthiness of `config.get("route", dict())`: an absent key yields the
empty (falsy) dict; a present dict is truthy iff it has any key. -/
def routeTruthy : Option Route → Bool
  | none => false
  | some r => r.rules.isSome || r.final.isSome || !r.extra.isEmpty

/-- `_validate_routing` (config_validator.py:295). -/
def validateRouting (o : Option Route) : Findings :=
  if ¬routeTruthy o then warnF "No routing rules configured".data
  else
    match o with
    | none => Findings.empty
    | some r =>
      ((if r.final.isNone then
          warnF "No final outbound specified in routing".data
        else Findings.empty).app
       (match r.rules with
        | some rules => validateRulesGo 0 rules
        | none => Findings.empty))

/-- `_validate_dns_address` (config_validator.py:332). -/
def validateDnsAddress (i : Nat) (addr : LC) : Findings :=
  if addr = "local".data then Findings.empty
  else
    (if ¬("https://".data.isPrefixOf addr || "tls://".data.isPrefixOf addr) then
      warnF ("DNS server ".data ++ natToChars i ++
        ": consider using secure DNS (DoH/DoT)".data)
     else Findings.empty).app
    (if "https://".data.isPrefixOf addr then
      (if (pyUrlsplit addr).netloc = [] then
        errF ("DNS server ".data ++ natToChars i ++ ": invalid DoH URL".data)
       else Findings.empty)
     else Findings.empty)

def validateDnsServersGo : Nat → List DnsServer → Findings
  | _, [] => Findings.empty
  | i, s :: rest =>
    (match s with
     | .obj _ addr _ =>
       match addr with
       | none => errF ("DNS server ".data ++ natToChars i ++ ": missing address".data)
       | some a => validateDnsAddress i a
     | .str a => validateDnsAddress i a).app
    (validateDnsServersGo (i + 1) rest)

def dnsTruthy : Option Dns → Bool
  | none => false
  | some d => d.servers.isSome || !d.extra.isEmpty

/-- `_validate_dns` (config_validator.py:311). -/
def validateDns (o : Option Dns) : Findings :=
  if ¬dnsTruthy o then warnF "No DNS configuration found".data
  else
    match o with
    | none => Findings.empty
    | some d =>
      match d.servers with
      | none => errF "DNS configuration missing servers".data
      | some servers => validateDnsServersGo 0 servers

/-- All findings of one `validate_singbox_config` call on an
already-loaded document (file I/O is the external wrapper's job). -/
def singboxFindings (cfg : SingboxConfig) : Findings :=
  ((validateSingboxStructure cfg).app
    (validateOutbounds (cfg.outbounds.getD []))).app
  ((validateRouting cfg.route).app (validateDns cfg.dns))

/-- `validate_singbox_config` (config_validator.py:27) as a state
transformer on the validator instance: the new findings are appended to
the instance lists and the returned flag is `len(self.errors) == 0` on
the instance's accumulated error list. -/
def validateSingboxConfig (cfg : SingboxConfig) (st : Findings) :
    Bool × Findings :=
  let st2 := st.app (singboxFindings cfg)
  (st2.errors.isEmpty, st2)

/-! ## Subscription validation (`validate_subscription_format`) -/

/-- `_validate_proxy_url` (config_validator.py:381). -/
def validateProxyUrl (url : LC) : Bool :=
  if "vmess://".data.isPrefixOf url then
    match (b64decode (url.drop 8)).bind utf8Decode with
    | none => false
    | some payload =>
      match parseJsonObj payload with
      | none => false
      | some obj =>
        ["add".data, "port".data, "id".data].all
          (fun k => (obj.find? (fun m => m.fst = k)).isSome)
  else if "ss://".data.isPrefixOf url then
    let part0 := url.drop 5
    let part := part0.takeWhile (· ≠ '#')
    if part.any (· = '@') then
      let server := part.drop ((part.takeWhile (· ≠ '@')).length + 1)
      server.any (· = ':')
    else
      match (b64decode part).bind utf8Decode with
      | none => false
      | some dec => dec.any (· = '@') && dec.any (· = ':')
  else if "trojan://".data.isPrefixOf url then
    let p1 := (url.drop 9).takeWhile (· ≠ '#')
    let part := p1.takeWhile (· ≠ '?')
    part.any (· = '@') &&
      ((splitOnChar '@' part).getD 1 []).any (· = ':')
  else if "vless://".data.isPrefixOf url then
    let p1 := (url.drop 8).takeWhile (· ≠ '#')
    let part := p1.takeWhile (· ≠ '?')
    if part.any (· = '@') then
      let uuidPart := part.takeWhile (· ≠ '@')
      let server := part.drop (uuidPart.length + 1)
      pythonUUIDValid uuidPart && server.any (· = ':')
    else false
  else false

/-- The per-line tally loop of `validate_subscription_format`: returns
the number of valid lines and the warnings for invalid ones, in order. -/
def subscriptionTally : List LC → Nat × List LC
  | [] => (0, [])
  | l :: rest =>
    let line := pyStrip l
    let t := subscriptionTally rest
    if line = [] then t
    else if validateProxyUrl line then (t.fst + 1, t.snd)
    else (t.fst, ("Invalid proxy URL: ".data ++ line.take 50 ++ "...".data) :: t.snd)

/-- `validate_subscription_format` (config_validator.py:350) as a state
transformer.  The whole document must base64- and UTF-8-decode (there is
no plain-text fallback here — an exception lands in the `except` arm,
whose message interpolates the exception text, elided in this model);
the call fails iff no line validates. -/
def validateSubscriptionFormat (content : LC) (st : Findings) :
    Bool × Findings :=
  match (b64decode content).bind utf8Decode with
  | none => (false, st.app (errF "Failed to decode subscription".data))
  | some decoded =>
    let t := subscriptionTally (splitOnChar '\n' (pyStrip decoded))
    if t.fst = 0 then
      (false, st.app { errors := ["No valid proxy URLs found in subscription".data],
                       warnings := t.snd, info := [] })
    else
      (true, st.app { errors := [], warnings := t.snd,
                      info := ["Found ".data ++ natToChars t.fst ++
                        " valid proxy configurations".data] })

/-! ## Batch subscription decode (`_fetch_from_subscription`,
auto_updater.py:121) -/

/-- A parsed server dict with the `source` tag the fetch loop adds. -/
structure Sourced where
  record : ProxyRecord
  source : LC
deriving DecidableEq, Repr

/-- One line of the fetch loop: scheme dispatch, then parse; unknown
schemes and parser failures (`None` or a raised exception) both leave
the loop without a record. -/
def parseLine (line : LC) : Option ProxyRecord :=
  if "ss://".data.isPrefixOf line then parseSsUrl line
  else if "vmess://".data.isPrefixOf line then parseVmessUrl line
  else if "trojan://".data.isPrefixOf line then parseTrojanUrl line
  else none

def decodeAllGo (source : LC) : List LC → List Sourced
  | [] => []
  | l :: rest =>
    let line := pyStrip l
    if line = [] then decodeAllGo source rest
    else
      match parseLine line with
      | some r => { record := r, source := source } :: decodeAllGo source rest
      | none => decodeAllGo source rest

/-- The line loop of `_fetch_from_subscription` over the (already
base64-resolved) subscription text. -/
def decodeAllLines (content : LC) (source : LC) : List Sourced :=
  decodeAllGo source (splitOnChar '\n' (pyStrip content))

/-- The base64-or-plain fallback at the top of `_fetch_from_subscription`. -/
def resolveContent (respText : LC) : LC :=
  match (b64decode respText).bind utf8Decode with
  | some t => t
  | none => respText

/-- `_fetch_from_subscription` on a fetched response body. -/
def fetchFromSubscription (respText : LC) (source : LC) : List Sourced :=
  decodeAllLines (resolveContent respText) source

/-- The stripped non-blank lines the loop attempts to parse. -/
def lineAttempts (content : LC) : List LC :=
  ((splitOnChar '\n' (pyStrip content)).map pyStrip).filter (· ≠ [])

/-- N: the number of non-blank lines of the subscription text. -/
def nonBlankCount (content : LC) : Nat := (lineAttempts content).length

/-- M: the number of non-blank lines that fail to decode (parser failure
or unrecognised scheme). -/
def malformedCount (content : LC) : Nat :=
  ((lineAttempts content).filter (fun l => (parseLine l).isNone)).length

/-! ## `generate_singbox_config` (proxy_generator.py:195) -/

def singboxVmessOutbound (s : SDict) (rng : Nat → Nat) :
    Except Unit Outbound := do
  let host ← dget s.host
  let ports ← dget s.ports
  let vmPort ← dget ports.vmess
  let country ← dget s.country
  .ok { Outbound.none0 with
        tag := some ("vmess-".data ++ toLowerAscii country),
        ty := some "vmess".data,
        server := some host,
        serverPort := some vmPort,
        uuid := some (genUUID4 rng),
        security := some "auto".data,
        alterId := some 0,
        globalPadding := some false,
        authenticatedLength := some true,
        transport := some { ty := some "ws".data, path := some "/vmess".data,
                            host := none,
                            headers := [("Host".data, host)] },
        tls := some { enabled := some true, serverName := some host,
                      minVersion := none,
                      alpn := some ["h2".data, "http/1.1".data],
                      reality := none } }

def singboxSsOutbound (s : SDict) (rng : Nat → Nat) :
    Except Unit Outbound := do
  let host ← dget s.host
  let ports ← dget s.ports
  let ssPort ← dget ports.shadowsocks
  let country ← dget s.country
  .ok { Outbound.none0 with
        tag := some ("ss-".data ++ toLowerAscii country),
        ty := some "shadowsocks".data,
        server := some host,
        serverPort := some ssPort,
        method := some "chacha20-ietf-poly1305".data,
        password := some (genPassword 16 rng),
        plugin := some "v2ray-plugin".data,
        pluginOpts := some ("server;tls;host=".data ++ host) }

def singboxOutboundsGo (rngU rngP : Nat → Nat → Nat) :
    List SDict → Nat → Except Unit (List Outbound)
  | [], _ => .ok []
  | s :: rest, i => do
    let vm ← singboxVmessOutbound s (rngU i)
    let ss ← singboxSsOutbound s (rngP i)
    let tail ← singboxOutboundsGo rngU rngP rest (i + 1)
    .ok (vm :: ss :: tail)

def directOutbound : Outbound :=
  { Outbound.none0 with tag := some "direct".data, ty := some "direct".data }

def blockOutbound : Outbound :=
  { Outbound.none0 with tag := some "block".data, ty := some "block".data }

/-- The fixed dns block of the generated config (servers `cloudflare`
over DoH and `local`; the dict also has `rules`, `final` and `strategy`
keys, recorded for truthiness). -/
def singboxDns : Dns :=
  { servers := some
      [.obj (some "cloudflare".data) (some "https://1.1.1.1/dns-query".data)
         (some "direct".data),
       .obj (some "local".data) (some "local".data) (some "direct".data)],
    extra := ["rules".data, "final".data, "strategy".data] }

/-- The document `generate_singbox_config` assembles around the
generated outbound list: fixed log/dns/inbounds/route dicts, the
outbounds plus `direct` and `block`, and `route.final` set to the first
generated tag, or "direct" when there are no servers. -/
def singboxOfOutbounds (obs : List Outbound) : SingboxConfig :=
  { inbounds := some [{ ty := some "mixed".data,
                        listen := some "127.0.0.1".data,
                        listenPort := some 1080 }],
    outbounds := some (obs ++ [directOutbound, blockOutbound]),
    route := some
      { rules := some
          [{ outbound := some "dns-out".data, extra := ["protocol".data] },
           { outbound := some "direct".data,
             extra := ["geosite".data, "geoip".data] }],
        final := some (match obs with
          | o :: _ => o.tag.getD "direct".data
          | [] => "direct".data),
        extra := ["geoip".data, "geosite".data, "auto_detect_interface".data] },
    dns := some singboxDns }

/-- `generate_singbox_config`: per server a vmess and a shadowsocks
outbound, then the fixed document around them. -/
def generateSingboxConfig (servers : List SDict)
    (rngU rngP : Nat → Nat → Nat) : Except Unit SingboxConfig := do
  let obs ← singboxOutboundsGo rngU rngP servers 0
  .ok (singboxOfOutbounds obs)

/-! ## Expected round-trip records and concrete claim inputs -/

/-- The record `_parse_shadowsocks_url` must rebuild from an encoded
shadowsocks config: every URI-carried field of the config, unchanged. -/
def ssRecordOfConfig (c : SSConfig) : ProxyRecord :=
  .ss c.server c.serverPort c.method c.password c.remarks

/-- The record `_parse_vmess_url` must rebuild from an encoded vmess
config: each field read off the config dict under the decoder's names. -/
def vmRecordOfConfig (obj : List (LC × Jv)) : ProxyRecord :=
  .vm (pyGetD obj "add".data (.jstr []))
    ((pyIntOfJv (pyGetD obj "port".data (.jnum 0))).getD 0)
    (pyGetD obj "id".data (.jstr []))
    ((pyIntOfJv (pyGetD obj "aid".data (.jnum 0))).getD 0)
    (pyGetD obj "scy".data (.jstr "auto".data))
    (pyGetD obj "net".data (.jstr "tcp".data))
    (pyGetD obj "path".data (.jstr "/".data))
    (pyGetD obj "host".data (.jstr []))
    (pyGetD obj "tls".data (.jstr []) = .jstr "tls".data)
    (pyGetD obj "ps".data
      (.jstr ("VMess-".data ++ jvDisplay (pyGetD obj "add".data (.jstr [])))))

/-- The record `_parse_trojan_url` must rebuild from an encoded trojan
config: host, port, password, sni and remark, all present. -/
def trRecordOfConfig (c : TrojanConfig) : ProxyRecord :=
  .tr (some c.remoteAddr) c.remotePort (some c.password) (some c.sslSni) c.remarks

/-- A character `json.dumps` emits verbatim inside a string literal. -/
def plainChar (c : Char) : Bool :=
  32 ≤ c.toNat && c.toNat ≤ 126 && c ≠ dquote && c ≠ bslash

/-- A member whose key and string value are emitted verbatim. -/
def plainMember (m : LC × Jv) : Prop :=
  m.fst.all plainChar = true ∧
    match m.snd with
    | .jstr s => s.all plainChar = true
    | .jnum _ => False

/-- The first sample server of `_load_server_list`. -/
def sampleServer0 : SDict :=
  { host := some "us1.example.com".data, country := some "US".data,
    city := some "New York".data,
    ports := some { shadowsocks := some 8388, vmess := some 10086, trojan := some 443 } }

/-- A fixed choice stream (every draw picks index 0: letter a / digit 0). -/
def rngZero : Nat → Nat := fun _ => 0

/-- A choice stream whose every password draw picks index 64, the
character `#` of `pwdChars`. -/
def rngHash : Nat → Nat := fun _ => 64

/-- A choice stream whose every password draw picks index 62, the
character `!` of `pwdChars`. -/
def rngBang : Nat → Nat := fun _ => 62

/-- A per-server family of fixed choice streams. -/
def rngZZ : Nat → Nat → Nat := fun _ _ => 0

/-- The trojan outbound of the C5 test vector: type, server, server_port
and password only — no tls block. -/
def c5Outbound : Outbound :=
  { Outbound.none0 with
    ty := some "trojan".data
    server := some "x".data
    serverPort := some 443
    password := some "p".data }

/-- A server dict with a non-empty host but no ports entry. -/
def c6NoPorts : SDict :=
  { host := some "h".data, country := none, city := none, ports := none }

/-- A server dict with an empty host and every other key present. -/
def c6EmptyHost : SDict :=
  { host := some [], country := some "US".data, city := some "New York".data,
    ports := some { shadowsocks := some 8388, vmess := some 10086, trojan := some 443 } }

/-- A server dict with host and all three ports but no country key. -/
def c10NoCountry : SDict :=
  { host := some "h".data, country := none, city := some "c".data,
    ports := some { shadowsocks := some 8388, vmess := some 10086, trojan := some 443 } }

/-- An empty document: no inbounds, outbounds, route or dns keys. -/
def cfg9 : SingboxConfig :=
  { inbounds := none, outbounds := none, route := none, dns := none }

/-- The shadowsocks config `generate_shadowsocks_config` produces for the
first sample server under the all-zero choice stream. -/
def c7cfg0 : SSConfig :=
  { server := "us1.example.com".data, serverPort := 8388,
    password := List.replicate 16 'a',
    method := "chacha20-ietf-poly1305".data, plugin := "v2ray-plugin".data,
    pluginOpts := "server;tls;host=us1.example.com".data,
    remarks := "SS-US-New York".data, timeout := 300 }

/-- The trojan config `generate_trojan_config` produces for the first
sample server when every password draw picks the character `#`. -/
def c1HashCfg : TrojanConfig :=
  { password := List.replicate 32 '#', remoteAddr := "us1.example.com".data,
    remotePort := 443, sslEnabled := true, sslSni := "us1.example.com".data,
    sslAlpn := ["h2".data, "http/1.1".data], sslReuseSession := true,
    sslSessionTicket := false, tcpNoDelay := true, tcpKeepAlive := true,
    remarks := "Trojan-US-New York".data }

/-! # Theorems

First a layer of reusable lemmas about the encodings, then one theorem
(plus witness / counterexample) per claim. -/

theorem takeWhile_append_all {p : Char → Bool} (l r : LC)
    (h : ∀ c ∈ l, p c = true) :
    (l ++ r).takeWhile p = l ++ r.takeWhile p := by
  induction l with
  | nil => rfl
  | cons c cs ih =>
    simp only [List.cons_append, List.takeWhile_cons, h c (by simp)]
    simp only [if_pos trivial]
    rw [ih (fun x hx => h x (by simp [hx]))]

theorem takeWhile_append_stop {p : Char → Bool} (l : LC) (c : Char) (r : LC)
    (h : ∀ x ∈ l, p x = true) (hc : p c = false) :
    (l ++ c :: r).takeWhile p = l := by
  rw [takeWhile_append_all l _ h]
  simp [List.takeWhile_cons, hc]

theorem dropWhile_all_false {p : Char → Bool} (l : LC)
    (h : ∀ c ∈ l, p c = false) : l.dropWhile p = l := by
  cases l with
  | nil => rfl
  | cons c cs => simp [List.dropWhile_cons, h c (by simp)]

theorem pyStrip_no_ws (s : LC) (h : ∀ c ∈ s, isPyWs c = false) :
    pyStrip s = s := by
  unfold pyStrip
  rw [dropWhile_all_false s h,
    dropWhile_all_false _ (fun c hc => h c (by simpa using hc)),
    List.reverse_reverse]

theorem drop_len_succ_append (l : LC) (c : Char) (r : LC) :
    (l ++ c :: r).drop (l.length + 1) = r := by
  have : (l ++ c :: r).drop (l.length + 1) = ((l ++ [c]) ++ r).drop (l ++ [c]).length := by
    simp
  rw [this, List.drop_left]

/-! ### Base64 round trip -/

theorem dec6_enc6 : ∀ n, n < 64 → dec6 (enc6 n) = some n := by decide

theorem enc6_ne_pad : ∀ n, n < 64 → enc6 n ≠ '=' := by decide

theorem isB64Kept_enc6 : ∀ n, n < 64 → isB64Kept (enc6 n) = true := by decide

theorem b64encode_kept :
    ∀ l : List Nat, (∀ b ∈ l, b < 256) → ∀ c ∈ b64encode l, isB64Kept c = true
  | [], _, c, hc => by simp [b64encode] at hc
  | [a], h, c, hc => by
    have ha : a < 256 := h a (by simp)
    simp only [b64encode, List.mem_cons, List.mem_singleton] at hc
    rcases hc with rfl | rfl | rfl | hc
    · exact isB64Kept_enc6 _ (by omega)
    · exact isB64Kept_enc6 _ (by omega)
    · rfl
    · simp at hc; subst hc; rfl
  | [a, b], h, c, hc => by
    have ha : a < 256 := h a (by simp)
    have hb : b < 256 := h b (by simp)
    simp only [b64encode, List.mem_cons, List.mem_singleton] at hc
    rcases hc with rfl | rfl | rfl | hc
    · exact isB64Kept_enc6 _ (by omega)
    · exact isB64Kept_enc6 _ (by omega)
    · exact isB64Kept_enc6 _ (by omega)
    · simp at hc; subst hc; rfl
  | a :: b :: c' :: rest, h, c, hc => by
    have ha : a < 256 := h a (by simp)
    have hb : b < 256 := h b (by simp)
    have hc' : c' < 256 := h c' (by simp)
    simp only [b64encode, List.mem_cons] at hc
    rcases hc with rfl | rfl | rfl | rfl | hc
    · exact isB64Kept_enc6 _ (by omega)
    · exact isB64Kept_enc6 _ (by omega)
    · exact isB64Kept_enc6 _ (by omega)
    · exact isB64Kept_enc6 _ (by omega)
    · exact b64encode_kept rest (fun x hx => h x (by simp [hx])) c hc

theorem b64encode_length :
    ∀ l : List Nat, (b64encode l).length % 4 = 0
  | [] => rfl
  | [_] => by simp [b64encode]
  | [_, _] => by simp [b64encode]
  | _ :: _ :: _ :: rest => by
    simp only [b64encode, List.length_cons]
    have := b64encode_length rest
    omega

theorem b64encode_ne_nil : ∀ l : List Nat, l ≠ [] → b64encode l ≠ []
  | [], h => absurd rfl h
  | [_], _ => by simp [b64encode]
  | [_, _], _ => by simp [b64encode]
  | _ :: _ :: _ :: _, _ => by simp [b64encode]

theorem b64core_data (c : Char) (rest : LC) (quad : List Nat) (pads : Nat) (v : Nat)
    (hne : c ≠ '=') (hv : dec6 c = some v) (hq : quad.length ≠ 3) :
    b64core (c :: rest) quad pads = b64core rest (quad ++ [v]) 0 := by
  simp only [b64core, if_neg hne, hv, if_neg hq]

theorem b64core_data4 (c : Char) (rest : LC) (quad : List Nat) (pads : Nat) (v : Nat)
    (hne : c ≠ '=') (hv : dec6 c = some v) (hq : quad.length = 3) :
    b64core (c :: rest) quad pads =
      (b64core rest [] 0).map (fun t => b64emit (quad ++ [v]) ++ t) := by
  simp only [b64core, if_neg hne, hv, if_pos hq]

theorem b64core_pad_cont (rest : LC) (quad : List Nat) (pads : Nat)
    (h2 : 2 ≤ quad.length) (h4 : ¬4 ≤ quad.length + (pads + 1)) :
    b64core ('=' :: rest) quad pads = b64core rest quad (pads + 1) := by
  simp only [b64core, if_pos rfl, if_pos h2, if_neg h4, if_true]

theorem b64core_pad_done (rest : LC) (quad : List Nat) (pads : Nat)
    (h2 : 2 ≤ quad.length) (h4 : 4 ≤ quad.length + (pads + 1)) :
    b64core ('=' :: rest) quad pads = some (b64final quad) := by
  simp only [b64core, if_pos rfl, if_pos h2, if_pos h4, if_true]

/-- The `binascii` loop inverts `b64encode`: each complete quad emits its
three bytes, and the final padded quad ends decoding with the leftover
byte(s). -/
theorem b64core_encode :
    ∀ l : List Nat, (∀ b ∈ l, b < 256) → b64core (b64encode l) [] 0 = some l
  | [], _ => rfl
  | [a], h => by
    have ha : a < 256 := h a (by simp)
    show b64core (enc6 (a / 4) :: enc6 (a % 4 * 16) :: '=' :: '=' :: []) [] 0 = some [a]
    rw [b64core_data _ _ _ _ _ (enc6_ne_pad _ (by omega)) (dec6_enc6 _ (by omega)) (by simp),
      b64core_data _ _ _ _ _ (enc6_ne_pad _ (by omega)) (dec6_enc6 _ (by omega)) (by simp),
      b64core_pad_cont _ _ _ (by simp) (by simp),
      b64core_pad_done _ _ _ (by simp) (by simp)]
    show some [a / 4 * 4 + a % 4 * 16 / 16] = some [a]
    have : a / 4 * 4 + a % 4 * 16 / 16 = a := by omega
    rw [this]
  | [a, b], h => by
    have ha : a < 256 := h a (by simp)
    have hb : b < 256 := h b (by simp)
    show b64core (enc6 (a / 4) :: enc6 (a % 4 * 16 + b / 16) ::
      enc6 (b % 16 * 4) :: '=' :: []) [] 0 = some [a, b]
    rw [b64core_data _ _ _ _ _ (enc6_ne_pad _ (by omega)) (dec6_enc6 _ (by omega)) (by simp),
      b64core_data _ _ _ _ _ (enc6_ne_pad _ (by omega)) (dec6_enc6 _ (by omega)) (by simp),
      b64core_data _ _ _ _ _ (enc6_ne_pad _ (by omega)) (dec6_enc6 _ (by omega)) (by simp),
      b64core_pad_done _ _ _ (by simp) (by simp)]
    show some [a / 4 * 4 + (a % 4 * 16 + b / 16) / 16,
      (a % 4 * 16 + b / 16) % 16 * 16 + b % 16 * 4 / 4] = some [a, b]
    have e1 : a / 4 * 4 + (a % 4 * 16 + b / 16) / 16 = a := by omega
    have e2 : (a % 4 * 16 + b / 16) % 16 * 16 + b % 16 * 4 / 4 = b := by omega
    rw [e1, e2]
  | a :: b :: c :: rest, h => by
    have ha : a < 256 := h a (by simp)
    have hb : b < 256 := h b (by simp)
    have hc : c < 256 := h c (by simp)
    have hrec := b64core_encode rest (fun y hy => h y (by simp [hy]))
    show b64core (enc6 (a / 4) :: enc6 (a % 4 * 16 + b / 16) ::
      enc6 (b % 16 * 4 + c / 64) :: enc6 (c % 64) :: b64encode rest) [] 0 =
      some (a :: b :: c :: rest)
    rw [b64core_data _ _ _ _ _ (enc6_ne_pad _ (by omega)) (dec6_enc6 _ (by omega)) (by simp),
      b64core_data _ _ _ _ _ (enc6_ne_pad _ (by omega)) (dec6_enc6 _ (by omega)) (by simp),
      b64core_data _ _ _ _ _ (enc6_ne_pad _ (by omega)) (dec6_enc6 _ (by omega)) (by simp),
      b64core_data4 _ _ _ _ _ (enc6_ne_pad _ (by omega)) (dec6_enc6 _ (by omega)) (by simp),
      hrec]
    show some ([a / 4 * 4 + (a % 4 * 16 + b / 16) / 16,
      (a % 4 * 16 + b / 16) % 16 * 16 + (b % 16 * 4 + c / 64) / 4,
      (b % 16 * 4 + c / 64) % 4 * 64 + c % 64] ++ rest) = some (a :: b :: c :: rest)
    have e1 : a / 4 * 4 + (a % 4 * 16 + b / 16) / 16 = a := by omega
    have e2 : (a % 4 * 16 + b / 16) % 16 * 16 + (b % 16 * 4 + c / 64) / 4 = b := by omega
    have e3 : (b % 16 * 4 + c / 64) % 4 * 64 + c % 64 = c := by omega
    rw [e1, e2, e3]
    rfl

theorem dec6Aux_mem : ∀ (l : LC) (i : Nat) (x : Char),
    (dec6Aux l i x).isSome = true → x ∈ l := by
  intro l
  induction l with
  | nil => intro i x h; simp [dec6Aux] at h
  | cons c r ih =>
    intro i x h
    simp only [dec6Aux] at h
    by_cases hc : c = x
    · subst hc; exact List.mem_cons_self _ _
    · rw [if_neg hc] at h
      exact List.mem_cons_of_mem _ (ih (i + 1) x h)

theorem b64chars_ascii : ∀ c ∈ b64chars, c.toNat < 128 := by decide

theorem isB64Kept_ascii (c : Char) (h : isB64Kept c = true) : c.toNat < 128 := by
  simp only [isB64Kept, Bool.or_eq_true, decide_eq_true_eq] at h
  rcases h with h | rfl
  · exact b64chars_ascii c (dec6Aux_mem _ _ _ h)
  · decide

/-- Python's b64decode inverts b64encode on any byte list. -/
theorem b64_roundtrip (l : List Nat) (h : ∀ b ∈ l, b < 256) :
    b64decode (b64encode l) = some l := by
  unfold b64decode
  rw [if_pos (List.all_eq_true.mpr (fun c hc => by
    simpa using isB64Kept_ascii c (b64encode_kept l h c hc)))]
  exact b64core_encode l h

/-! ### UTF-8 on ASCII text -/

theorem utf8Encode_ascii (s : LC) (h : ∀ c ∈ s, c.toNat < 128) :
    utf8Encode s = s.map Char.toNat := by
  induction s with
  | nil => rfl
  | cons c cs ih =>
    have hc : c.toNat < 128 := h c (by simp)
    simp only [utf8Encode, utf8EncodeChar, if_pos hc, List.map_cons]
    rw [ih (fun x hx => h x (by simp [hx]))]
    rfl

theorem utf8Encode_lt256 (s : LC) (h : ∀ c ∈ s, c.toNat < 128) :
    ∀ b ∈ utf8Encode s, b < 256 := by
  rw [utf8Encode_ascii s h]
  intro b hb
  rcases List.mem_map.mp hb with ⟨c, hc, rfl⟩
  exact lt_trans (h c hc) (by omega)

theorem utf8DecodeAux_ascii (s : LC) :
    ∀ fuel, (∀ c ∈ s, c.toNat < 128) → s.length ≤ fuel →
      utf8DecodeAux fuel (s.map Char.toNat) = some s := by
  induction s with
  | nil => intro fuel _ _; cases fuel <;> rfl
  | cons c cs ih =>
    intro fuel h hf
    have hc : c.toNat < 128 := h c (by simp)
    cases fuel with
    | zero => simp at hf
    | succ f =>
      simp only [List.map_cons, utf8DecodeAux, if_pos hc]
      rw [ih f (fun x hx => h x (by simp [hx])) (by simpa using hf)]
      simp [Char.ofNat_toNat]

/-- UTF-8 decoding inverts encoding on ASCII text. -/
theorem utf8_roundtrip_ascii (s : LC) (h : ∀ c ∈ s, c.toNat < 128) :
    utf8Decode (utf8Encode s) = some s := by
  unfold utf8Decode
  rw [utf8Encode_ascii s h]
  exact utf8DecodeAux_ascii s _ h (by simp)

/-- `base64.b64decode(...).decode("utf-8")` inverts
`base64.b64encode(s.encode())` on ASCII text. -/
theorem b64utf8_roundtrip (s : LC) (h : ∀ c ∈ s, c.toNat < 128) :
    (b64decode (b64encode (utf8Encode s))).bind utf8Decode = some s := by
  rw [b64_roundtrip _ (utf8Encode_lt256 s h)]
  exact utf8_roundtrip_ascii s h

/-! ### Decimal rendering -/

theorem natToCharsAux_fuel (n : Nat) :
    ∀ f1 f2, n < f1 → n < f2 → natToCharsAux f1 n = natToCharsAux f2 n := by
  induction n using Nat.strong_induction_on with
  | _ n ih =>
    intro f1 f2 h1 h2
    cases f1 with
    | zero => omega
    | succ g1 =>
      cases f2 with
      | zero => omega
      | succ g2 =>
        by_cases hn : n < 10
        · simp [natToCharsAux, hn]
        · simp only [natToCharsAux, if_neg hn]
          rw [ih (n / 10) (by omega) g1 g2 (by omega) (by omega)]

theorem natToChars_ge10 (n : Nat) (h : 10 ≤ n) :
    natToChars n = natToChars (n / 10) ++ [digitChar (n % 10)] := by
  show natToCharsAux (n + 1) n = natToCharsAux (n / 10 + 1) (n / 10) ++ [digitChar (n % 10)]
  conv_lhs => rw [natToCharsAux]
  rw [if_neg (by omega : ¬n < 10),
    natToCharsAux_fuel (n / 10) n (n / 10 + 1) (by omega) (by omega)]

theorem natToChars_lt10 (n : Nat) (h : n < 10) : natToChars n = [digitChar n] := by
  unfold natToChars
  simp [natToCharsAux, h]

theorem digitChar_isDigit : ∀ n, n < 10 → (digitChar n).isDigit = true := by decide

theorem digitChar_toNat : ∀ n, n < 10 → (digitChar n).toNat = 48 + n := by decide

theorem natToChars_ne_nil (n : Nat) : natToChars n ≠ [] := by
  by_cases h : n < 10
  · rw [natToChars_lt10 n h]; simp
  · rw [natToChars_ge10 n (by omega)]; simp

theorem natToChars_digits (n : Nat) : ∀ c ∈ natToChars n, c.isDigit = true := by
  induction n using Nat.strong_induction_on with
  | _ n ih =>
    by_cases h : n < 10
    · rw [natToChars_lt10 n h]
      intro c hc
      simp at hc
      subst hc
      exact digitChar_isDigit n h
    · rw [natToChars_ge10 n (by omega)]
      intro c hc
      rcases List.mem_append.mp hc with h1 | h1
      · exact ih (n / 10) (by omega) c h1
      · simp at h1; subst h1; exact digitChar_isDigit (n % 10) (by omega)

theorem digitsValAux_append (l r : LC) (acc : Nat) :
    digitsValAux (l ++ r) acc =
      (digitsValAux l acc).bind (fun m => digitsValAux r m) := by
  induction l generalizing acc with
  | nil => rfl
  | cons c cs ih =>
    simp only [List.cons_append, digitsValAux, List.append_eq]
    by_cases hc : c.isDigit
    · rw [if_pos hc, if_pos hc, ih]
    · rw [if_neg hc, if_neg hc]; rfl

theorem digitsValAux_natToChars (n : Nat) :
    ∀ acc, digitsValAux (natToChars n) acc =
      some (acc * 10 ^ (natToChars n).length + n) := by
  induction n using Nat.strong_induction_on with
  | _ n ih =>
    intro acc
    by_cases h : n < 10
    · rw [natToChars_lt10 n h]
      simp only [digitsValAux, if_pos (digitChar_isDigit n h), digitChar_toNat n h,
        List.length_singleton]
      congr 1
      ring_nf
      omega
    · rw [natToChars_ge10 n (by omega), digitsValAux_append,
        ih (n / 10) (by omega) acc]
      show digitsValAux [digitChar (n % 10)]
          (acc * 10 ^ (natToChars (n / 10)).length + n / 10) = _
      simp only [digitsValAux, if_pos (digitChar_isDigit (n % 10) (by omega)),
        digitChar_toNat (n % 10) (by omega), List.length_append,
        List.length_singleton]
      congr 1
      have hp : acc * 10 ^ ((natToChars (n / 10)).length + 1) =
          acc * 10 ^ (natToChars (n / 10)).length * 10 := by ring
      rw [hp]
      generalize acc * 10 ^ (natToChars (n / 10)).length = P
      omega

theorem digitsVal_natToChars (n : Nat) : digitsVal (natToChars n) = some n := by
  have h := digitsValAux_natToChars n 0
  have hne := natToChars_ne_nil n
  unfold digitsVal
  split
  · next heq => exact absurd heq hne
  · rw [h]; simp

theorem digit_not_ws (c : Char) (h : c.isDigit = true) : isPyWs c = false := by
  revert h
  simp only [Char.isDigit, isPyWs]
  intro h
  rcases Bool.and_eq_true .. |>.mp h with ⟨h1, h2⟩
  have g1 : 48 ≤ c.toNat := by
    simpa [Char.le_def] using (decide_eq_true_eq.mp h1)
  simp only [Bool.or_eq_false_iff, decide_eq_false_iff_not]
  refine ⟨⟨⟨⟨⟨?_, ?_⟩, ?_⟩, ?_⟩, ?_⟩, ?_⟩ <;>
    · rintro rfl; simp at g1

theorem pyInt_natToChars (n : Nat) : pyIntOfChars (natToChars n) = some (n : Int) := by
  unfold pyIntOfChars
  rw [pyStrip_no_ws _ (fun c hc => digit_not_ws c (natToChars_digits n c hc))]
  have hd := natToChars_digits n
  have hv := digitsVal_natToChars n
  cases hc : natToChars n with
  | nil => exact absurd hc (natToChars_ne_nil n)
  | cons c cs =>
    have hcd : c.isDigit = true := hd c (by rw [hc]; simp)
    have hne1 : c ≠ '-' := by rintro rfl; simp [Char.isDigit] at hcd
    have hne2 : c ≠ '+' := by rintro rfl; simp [Char.isDigit] at hcd
    rw [hc] at hv
    split
    next r heq =>
      simp only [List.cons.injEq] at heq
      exact absurd heq.1 hne1
    next r heq =>
      simp only [List.cons.injEq] at heq
      exact absurd heq.1 hne2
    next => rw [hv]; rfl

/-! ### Generated secrets: character sets -/

theorem genPassword_length (n : Nat) (rng : Nat → Nat) :
    (genPassword n rng).length = n := by
  simp [genPassword]

theorem getD_mem_of_lt (l : LC) (i : Nat) (d : Char) (h : i < l.length) :
    l.getD i d ∈ l := by
  rw [List.getD_eq_getElem l d h]
  exact List.getElem_mem h

theorem genPassword_mem (n : Nat) (rng : Nat → Nat) :
    ∀ c ∈ genPassword n rng, c ∈ pwdChars := by
  intro c hc
  rcases List.mem_map.mp hc with ⟨i, _, rfl⟩
  exact getD_mem_of_lt _ _ _ (Nat.mod_lt _ (by decide))

theorem pwdChars_ascii : ∀ c ∈ pwdChars, c.toNat < 128 := by decide

theorem pwdChars_not_colon : ∀ c ∈ pwdChars, c ≠ ':' := by decide

theorem pwdChars_not_slash : ∀ c ∈ pwdChars, c ≠ '/' := by decide

theorem pwdChars_not_newline : ∀ c ∈ pwdChars, c ≠ '\n' := by decide

theorem uuidDigit_mem (rng : Nat → Nat) (i : Nat) :
    uuidDigit rng i ∈ hexLowChars := by
  unfold uuidDigit
  by_cases h12 : i = 12
  · simp only [h12, if_true]; decide
  · by_cases h16 : i = 16
    · simp only [h12, if_false, h16, if_true]
      refine getD_mem_of_lt _ _ _ ?_
      have := Nat.mod_lt (rng i) (y := 4) (by decide)
      simp only [hexLowChars, String.data]
      simp
      omega
    · simp only [h12, if_false, h16, if_false]
      exact getD_mem_of_lt _ _ _ (Nat.mod_lt _ (by decide))

theorem genUUID4_shape (rng : Nat → Nat) :
    ∀ c ∈ genUUID4 rng, c = '-' ∨ c ∈ hexLowChars := by
  intro c hc
  simp only [genUUID4, List.mem_append, List.mem_cons, List.mem_map] at hc
  rcases hc with ((((⟨i, -, h⟩ | h | ⟨i, -, h⟩) | h | ⟨i, -, h⟩) | h | ⟨i, -, h⟩) | h | ⟨i, -, h⟩) <;>
    subst h <;>
    first
      | exact Or.inl rfl
      | exact Or.inr (uuidDigit_mem rng _)

theorem hexLowChars_ascii : ∀ c ∈ hexLowChars, c.toNat < 128 := by decide

theorem genUUID4_ascii (rng : Nat → Nat) : ∀ c ∈ genUUID4 rng, c.toNat < 128 := by
  intro c hc
  rcases genUUID4_shape rng c hc with rfl | h
  · decide
  · exact hexLowChars_ascii c h

/-! ### `uuid.UUID` accepts every generated UUID -/

theorem replaceStrAux_id (p r : LC) (ph : Char) (pt : LC) (hp : p = ph :: pt) :
    ∀ (s : LC) (fuel : Nat), (∀ c ∈ s, c ≠ ph) → replaceStrAux p r fuel s = s := by
  intro s
  induction s with
  | nil => intro fuel _; cases fuel <;> rfl
  | cons c cs ih =>
    intro fuel h
    cases fuel with
    | zero => rfl
    | succ f =>
      have hnp : p.isPrefixOf (c :: cs) = false := by
        subst hp
        simp only [List.isPrefixOf_cons₂]
        have : (ph == c) = false := by
          simp only [beq_eq_false_iff_ne, ne_eq]
          exact fun he => (h c (by simp)) he.symm
        simp [this]
      simp only [replaceStrAux, hnp, Bool.false_eq_true, if_false]
      rw [ih f (fun x hx => h x (by simp [hx]))]

theorem replaceStr_id (p r s : LC) (ph : Char) (pt : LC) (hp : p = ph :: pt)
    (h : ∀ c ∈ s, c ≠ ph) : replaceStr p r s = s := by
  unfold replaceStr
  rw [if_neg (by subst hp; simp)]
  exact replaceStrAux_id p r ph pt hp s s.length h

theorem pyStripChars_id (chars s : LC) (h : ∀ c ∈ s, chars.contains c = false) :
    pyStripChars chars s = s := by
  unfold pyStripChars
  rw [dropWhile_all_false _ h, dropWhile_all_false _ (fun c hc => h c (by simpa using hc)),
    List.reverse_reverse]

theorem replaceStrAux_dash (s : LC) :
    ∀ fuel, s.length ≤ fuel →
      replaceStrAux ['-'] [] fuel s = s.filter (· ≠ '-') := by
  induction s with
  | nil => intro fuel _; cases fuel <;> rfl
  | cons c cs ih =>
    intro fuel hf
    cases fuel with
    | zero => simp at hf
    | succ f =>
      by_cases hc : c = '-'
      · subst hc
        have hpre : (['-'] : LC).isPrefixOf ('-' :: cs) = true := by
          simp [List.isPrefixOf_cons₂]
        simp only [replaceStrAux, hpre, if_true, List.nil_append, List.length_cons,
          List.length_nil, List.drop_succ_cons, List.drop_zero]
        rw [ih f (by simpa using hf)]
        simp
      · have hpre : (['-'] : LC).isPrefixOf (c :: cs) = false := by
          simp only [List.isPrefixOf_cons₂]
          simp [beq_eq_false_iff_ne, Ne.symm hc]
        simp only [replaceStrAux, hpre, Bool.false_eq_true, if_false]
        rw [ih f (by simpa using hf)]
        simp [hc]

theorem replaceStr_dash (s : LC) : replaceStr ['-'] [] s = s.filter (· ≠ '-') := by
  unfold replaceStr
  rw [if_neg (by simp)]
  exact replaceStrAux_dash s s.length (le_refl _)

theorem hexLowChars_ne_u : ∀ c ∈ hexLowChars, c ≠ 'u' := by decide

theorem hexLowChars_ne_dash : ∀ c ∈ hexLowChars, c ≠ '-' := by decide

theorem hexLowChars_not_brace :
    ∀ c ∈ hexLowChars, ([lbrace, rbrace] : LC).contains c = false := by decide

theorem hexLowChars_hexVal : ∀ c ∈ hexLowChars, (hexVal c).isSome = true := by decide

theorem genUUID4_filter_dash (rng : Nat → Nat) :
    (genUUID4 rng).filter (· ≠ '-') =
      ((List.range 8).map (uuidDigit rng)) ++
      ((List.range 4).map (fun j => uuidDigit rng (8 + j))) ++
      ((List.range 4).map (fun j => uuidDigit rng (12 + j))) ++
      ((List.range 4).map (fun j => uuidDigit rng (16 + j))) ++
      ((List.range 12).map (fun j => uuidDigit rng (20 + j))) := by
  have hseg : ∀ (l : LC), (∀ c ∈ l, c ∈ hexLowChars) →
      l.filter (· ≠ '-') = l := by
    intro l hl
    apply List.filter_eq_self.mpr
    intro c hc
    simpa using hexLowChars_ne_dash c (hl c hc)
  have hmap : ∀ (n : Nat) (f : Nat → Char), (∀ i, f i ∈ hexLowChars) →
      ((List.range n).map f).filter (· ≠ '-') = (List.range n).map f := by
    intro n f hf
    apply hseg
    intro c hc
    rcases List.mem_map.mp hc with ⟨i, _, rfl⟩
    exact hf i
  simp only [genUUID4, List.filter_append, List.filter_cons]
  rw [hmap 8 _ (fun i => uuidDigit_mem rng i),
    hmap 4 _ (fun i => uuidDigit_mem rng (8 + i)),
    hmap 4 _ (fun i => uuidDigit_mem rng (12 + i)),
    hmap 4 _ (fun i => uuidDigit_mem rng (16 + i)),
    hmap 12 _ (fun i => uuidDigit_mem rng (20 + i))]
  simp

/-- Every generated version-4 UUID string passes the validator's
`uuid.UUID` check. -/
theorem pythonUUIDValid_genUUID4 (rng : Nat → Nat) :
    pythonUUIDValid (genUUID4 rng) = true := by
  have hshape := genUUID4_shape rng
  have hne_u : ∀ c ∈ genUUID4 rng, c ≠ 'u' := by
    intro c hc
    rcases hshape c hc with rfl | h
    · decide
    · exact hexLowChars_ne_u c h
  have hnb : ∀ c ∈ genUUID4 rng, ([lbrace, rbrace] : LC).contains c = false := by
    intro c hc
    rcases hshape c hc with rfl | h
    · decide
    · exact hexLowChars_not_brace c h
  show (decide ((replaceStr ['-'] [] (pyStripChars [lbrace, rbrace]
      (replaceStr "uuid:".data [] (replaceStr "urn:".data [] (genUUID4 rng))))).length = 32) &&
    (replaceStr ['-'] [] (pyStripChars [lbrace, rbrace]
      (replaceStr "uuid:".data [] (replaceStr "urn:".data [] (genUUID4 rng))))).all
        (fun c => (hexVal c).isSome)) = true
  rw [replaceStr_id "urn:".data [] _ 'u' "rn:".data rfl hne_u,
    replaceStr_id "uuid:".data [] _ 'u' "uid:".data rfl hne_u,
    pyStripChars_id _ _ hnb, replaceStr_dash, genUUID4_filter_dash]
  have hlen : (((List.range 8).map (uuidDigit rng)) ++
      ((List.range 4).map (fun j => uuidDigit rng (8 + j))) ++
      ((List.range 4).map (fun j => uuidDigit rng (12 + j))) ++
      ((List.range 4).map (fun j => uuidDigit rng (16 + j))) ++
      ((List.range 12).map (fun j => uuidDigit rng (20 + j)))).length = 32 := by
    simp
  rw [Bool.and_eq_true]
  constructor
  · simp [hlen]
  · rw [List.all_eq_true]
    intro c hc
    have hmem : c ∈ hexLowChars := by
      simp only [List.mem_append] at hc
      rcases hc with ((((hc | hc) | hc) | hc) | hc) <;>
        · rcases List.mem_map.mp hc with ⟨i, _, rfl⟩
          exact uuidDigit_mem rng _
    exact hexLowChars_hexVal c hmem

/-! ### JSON: parsing a dumped flat object -/

theorem jsonEscChar_plain (c : Char) (h : plainChar c = true) : jsonEscChar c = [c] := by
  simp only [plainChar, Bool.and_eq_true, decide_eq_true_eq] at h
  obtain ⟨⟨⟨h1, h2⟩, h3⟩, h4⟩ := h
  unfold jsonEscChar
  rw [if_neg h3, if_neg h4, if_neg, if_neg, if_neg, if_neg]
  · simp only [Bool.or_eq_true, decide_eq_true_eq, not_or, not_lt]
    omega
  · rintro rfl; simp at h1
  · rintro rfl; simp at h1
  · rintro rfl; simp at h1

theorem jsonEsc_plain (s : LC) (h : s.all plainChar = true) : jsonEsc s = s := by
  induction s with
  | nil => rfl
  | cons c cs ih =>
    simp only [List.all_cons, Bool.and_eq_true] at h
    simp only [jsonEsc, List.foldr_cons]
    rw [jsonEscChar_plain c h.1]
    have := ih h.2
    simp only [jsonEsc] at this
    rw [this]
    rfl

theorem parseJsonStr_plain (s : LC) :
    ∀ (r : LC) (fuel : Nat), s.all plainChar = true → s.length < fuel →
      parseJsonStr fuel (s ++ dquote :: r) = some (s, r) := by
  induction s with
  | nil =>
    intro r fuel _ hf
    cases fuel with
    | zero => omega
    | succ f =>
      simp only [parseJsonStr]
      rw [if_pos trivial]
  | cons c cs ih =>
    intro r fuel h hf
    simp only [List.all_cons, Bool.and_eq_true] at h
    obtain ⟨hc, hcs⟩ := h
    simp only [plainChar, Bool.and_eq_true, decide_eq_true_eq] at hc
    obtain ⟨⟨⟨h1, h2⟩, h3⟩, h4⟩ := hc
    cases fuel with
    | zero => omega
    | succ f =>
      show parseJsonStr (f + 1) (c :: (cs ++ dquote :: r)) = some (c :: cs, r)
      simp only [parseJsonStr]
      rw [if_neg h3, if_neg h4, if_neg (by omega : ¬c.toNat < 32),
        ih r f hcs (by simp at hf; omega)]
      rfl

theorem skipWs_cons (c : Char) (r : LC) (h : jsonWs c = false) :
    skipWs (c :: r) = c :: r := by
  simp [skipWs, List.dropWhile_cons, h]

theorem skipWs_space (r : LC) : skipWs (' ' :: r) = skipWs r := by
  simp only [skipWs, List.dropWhile_cons]
  rw [if_pos (by decide)]

theorem parseJsonMembers_space (fuel : Nat) (s : LC) :
    parseJsonMembers fuel (' ' :: s) = parseJsonMembers fuel s := by
  cases fuel with
  | zero => rfl
  | succ f => simp only [parseJsonMembers, skipWs_space]

theorem parseJsonMembers_dump :
    ∀ (obj : List (LC × Jv)) (r : LC) (fuel : Nat),
      (∀ m ∈ obj, plainMember m) → obj ≠ [] →
      (jsonDumpMembers obj).length < fuel →
      parseJsonMembers fuel (jsonDumpMembers obj ++ rbrace :: r) = some (obj, r) := by
  intro obj
  induction obj with
  | nil => intro r fuel _ hne _; exact absurd rfl hne
  | cons m rest ih =>
    intro r fuel hp _ hf
    obtain ⟨k, v⟩ := m
    obtain ⟨hk, hv⟩ := hp (k, v) (by simp)
    obtain ⟨s, rfl, hs⟩ : ∃ s, v = .jstr s ∧ s.all plainChar = true := by
      cases v with
      | jstr s => exact ⟨s, rfl, hv⟩
      | jnum n => exact absurd hv (by simp [plainMember])
    cases fuel with
    | zero => omega
    | succ f =>
      cases hrest : rest with
      | nil =>
        subst hrest
        have hlen : (jsonDumpMembers [(k, .jstr s)]).length = k.length + s.length + 6 := by
          simp [jsonDumpMembers, jsonDumpVal, jsonEsc_plain k hk, jsonEsc_plain s hs]
          omega
        rw [hlen] at hf
        have hd : jsonDumpMembers [(k, .jstr s)] ++ rbrace :: r =
            dquote :: (k ++ dquote :: ':' :: ' ' :: dquote :: (s ++ dquote :: rbrace :: r)) := by
          simp [jsonDumpMembers, jsonDumpVal, jsonEsc_plain k hk, jsonEsc_plain s hs]
        rw [hd]
        simp only [parseJsonMembers, skipWs_cons dquote _ (by decide), if_pos rfl]
        rw [parseJsonStr_plain k _ f hk (by omega)]
        simp only [skipWs_cons ':' _ (by decide)]
        rw [show skipWs (' ' :: dquote :: (s ++ dquote :: rbrace :: r)) =
          dquote :: (s ++ dquote :: rbrace :: r) by
            rw [skipWs_space, skipWs_cons dquote _ (by decide)]]
        simp only [parseJsonVal, if_pos rfl]
        rw [parseJsonStr_plain s _ f hs (by omega)]
        simp only [if_true, Option.map_some', skipWs_cons rbrace _ (by decide)]
        rfl
      | cons m2 rest2 =>
        subst hrest
        have hlen2 : (jsonDumpMembers ((k, .jstr s) :: m2 :: rest2)).length =
            k.length + s.length + 8 + (jsonDumpMembers (m2 :: rest2)).length := by
          simp [jsonDumpMembers, jsonDumpVal, jsonEsc_plain k hk, jsonEsc_plain s hs]
          omega
        rw [hlen2] at hf
        have hd : jsonDumpMembers ((k, .jstr s) :: m2 :: rest2) ++ rbrace :: r =
            dquote :: (k ++ dquote :: ':' :: ' ' :: dquote ::
              (s ++ dquote :: ',' :: ' ' ::
                (jsonDumpMembers (m2 :: rest2) ++ rbrace :: r))) := by
          simp [jsonDumpMembers, jsonDumpVal, jsonEsc_plain k hk, jsonEsc_plain s hs]
        rw [hd]
        simp only [parseJsonMembers, skipWs_cons dquote _ (by decide), if_pos rfl]
        rw [parseJsonStr_plain k _ f hk (by omega)]
        simp only [skipWs_cons ':' _ (by decide)]
        rw [show skipWs (' ' :: dquote :: (s ++ dquote :: ',' :: ' ' ::
            (jsonDumpMembers (m2 :: rest2) ++ rbrace :: r))) =
          dquote :: (s ++ dquote :: ',' :: ' ' ::
            (jsonDumpMembers (m2 :: rest2) ++ rbrace :: r)) by
            rw [skipWs_space, skipWs_cons dquote _ (by decide)]]
        simp only [parseJsonVal, if_pos rfl]
        rw [parseJsonStr_plain s _ f hs (by omega)]
        simp only [if_true, Option.map_some', skipWs_cons ',' _ (by decide)]
        show Option.map (fun x => ((k, Jv.jstr s) :: x.1, x.2))
          (parseJsonMembers f (' ' :: (jsonDumpMembers (m2 :: rest2) ++ rbrace :: r))) =
          some ((k, Jv.jstr s) :: m2 :: rest2, r)
        rw [parseJsonMembers_space,
          ih r f (fun m hm => hp m (List.mem_cons_of_mem _ hm)) (by simp) (by omega)]
        rfl

/-- `json.loads` inverts `json.dumps` on flat objects whose keys and
string values contain only plain characters. -/
theorem parseJsonObj_dump (obj : List (LC × Jv))
    (h : ∀ m ∈ obj, plainMember m) : parseJsonObj (jsonDumps obj) = some obj := by
  cases obj with
  | nil => rfl
  | cons m rest =>
    obtain ⟨k, v⟩ := m
    obtain ⟨hk, hv⟩ := h (k, v) (by simp)
    obtain ⟨s, rfl, hs⟩ : ∃ s, v = .jstr s ∧ s.all plainChar = true := by
      cases v with
      | jstr s => exact ⟨s, rfl, hv⟩
      | jnum n => exact absurd hv (by simp [plainMember])
    obtain ⟨t, ht⟩ : ∃ t, jsonDumpMembers ((k, Jv.jstr s) :: rest) = dquote :: t := by
      cases rest <;> exact ⟨_, rfl⟩
    have hD : jsonDumps ((k, Jv.jstr s) :: rest) = lbrace :: ((dquote :: t) ++ [rbrace]) := by
      simp only [jsonDumps, ht]; simp
    rw [hD]
    show (match parseJsonMembers ((lbrace :: ((dquote :: t) ++ [rbrace])).length + 1)
            ((dquote :: t) ++ [rbrace]) with
          | some (ms, r) => if (skipWs r).isEmpty = true then some ms else none
          | none => none) = some ((k, Jv.jstr s) :: rest)
    rw [show ((dquote :: t) ++ [rbrace] : LC) =
        jsonDumpMembers ((k, Jv.jstr s) :: rest) ++ rbrace :: [] by rw [ht]]
    rw [parseJsonMembers_dump ((k, Jv.jstr s) :: rest) []
      ((lbrace :: (jsonDumpMembers ((k, Jv.jstr s) :: rest) ++ [rbrace])).length + 1)
      h (by simp) (by simp; omega)]
    rfl

/-- Every character of a dumped plain flat object is ASCII. -/
theorem all_ascii_of_all (l : LC)
    (h : l.all (fun c => decide (c.toNat < 128)) = true) :
    ∀ c ∈ l, c.toNat < 128 := fun c hc => by
  simpa using List.all_eq_true.mp h c hc

theorem jsonDumpMembers_ascii :
    ∀ (obj : List (LC × Jv)), (∀ m ∈ obj, plainMember m) →
      ∀ c ∈ jsonDumpMembers obj, c.toNat < 128
  | [], _, c, hc => by simp [jsonDumpMembers] at hc
  | (k, v) :: rest, h, c, hc => by
    obtain ⟨hk, hv⟩ := h (k, v) (by simp)
    obtain ⟨s, rfl, hs⟩ : ∃ s, v = .jstr s ∧ s.all plainChar = true := by
      cases v with
      | jstr s => exact ⟨s, rfl, hv⟩
      | jnum n => exact absurd hv (by simp [plainMember])
    have hplain : ∀ (u : LC), u.all plainChar = true → ∀ x ∈ u, x.toNat < 128 := by
      intro u hu x hx
      have := List.all_eq_true.mp hu x hx
      simp only [plainChar, Bool.and_eq_true, decide_eq_true_eq] at this
      omega
    cases rest with
    | nil =>
      rw [show jsonDumpMembers [(k, Jv.jstr s)] =
          [dquote] ++ k ++ [dquote, ':', ' '] ++ [dquote] ++ s ++ [dquote] by
        simp [jsonDumpMembers, jsonDumpVal, jsonEsc_plain k hk, jsonEsc_plain s hs]] at hc
      simp only [List.append_assoc, List.mem_append] at hc
      rcases hc with hc | hc | hc | hc | hc | hc
      all_goals first
        | exact hplain k hk c hc
        | exact hplain s hs c hc
        | exact all_ascii_of_all _ (by decide) c hc
    | cons m2 rest2 =>
      rw [show jsonDumpMembers ((k, Jv.jstr s) :: m2 :: rest2) =
          [dquote] ++ k ++ [dquote, ':', ' '] ++ [dquote] ++ s ++ [dquote] ++
            [',', ' '] ++ jsonDumpMembers (m2 :: rest2) by
        simp [jsonDumpMembers, jsonDumpVal, jsonEsc_plain k hk, jsonEsc_plain s hs]] at hc
      simp only [List.append_assoc, List.mem_append] at hc
      rcases hc with hc | hc | hc | hc | hc | hc | hc | hc
      all_goals first
        | exact hplain k hk c hc
        | exact hplain s hs c hc
        | exact all_ascii_of_all _ (by decide) c hc
        | exact jsonDumpMembers_ascii (m2 :: rest2)
            (fun m hm => h m (List.mem_cons_of_mem _ hm)) c hc

/-- Every character of a dumped plain flat object is ASCII. -/
theorem jsonDumps_ascii (obj : List (LC × Jv))
    (h : ∀ m ∈ obj, plainMember m) : ∀ c ∈ jsonDumps obj, c.toNat < 128 := by
  intro c hc
  simp only [jsonDumps, List.mem_cons, List.mem_append, List.mem_singleton] at hc
  rcases hc with (rfl | hc) | rfl | hc
  · decide
  · exact jsonDumpMembers_ascii obj h c hc
  · decide
  · simp at hc

/-! ### Decoding an assembled shadowsocks line -/

theorem takeWhile_cons_true {p : Char → Bool} (c : Char) (r : LC) (hc : p c = true) :
    (c :: r).takeWhile p = c :: r.takeWhile p := by
  simp [List.takeWhile_cons, hc]

theorem takeWhile_cons_false {p : Char → Bool} (c : Char) (r : LC) (hc : p c = false) :
    (c :: r).takeWhile p = [] := by
  simp [List.takeWhile_cons, hc]

theorem dropWhile_append_all {p : Char → Bool} (l r : LC)
    (h : ∀ c ∈ l, p c = true) : (l ++ r).dropWhile p = r.dropWhile p := by
  induction l with
  | nil => rfl
  | cons c cs ih =>
    simp only [List.cons_append, List.dropWhile_cons, h c (by simp), if_pos trivial]
    exact ih (fun x hx => h x (by simp [hx]))

theorem parseSsUrl_build (auth host : LC) (port : Nat) (frag : LC)
    (haNe : auth ≠ []) (haAt : ∀ c ∈ auth, c ≠ '@')
    (hhNe : host ≠ []) (hhC : ∀ c ∈ host, c ≠ ':')
    (hfNe : frag ≠ []) (hfNl : ∀ c ∈ frag, c ≠ '\n') :
    parseSsUrl ("ss://".data ++ auth ++ '@' :: host ++ ':' :: natToChars port ++ '#' :: frag) =
      match (b64decode auth).bind utf8Decode with
      | none => none
      | some dec =>
        let method := dec.takeWhile (· ≠ ':')
        if method.length = dec.length then none
        else some (.ss host port method (dec.drop (method.length + 1)) (pyUnquote frag)) := by
  rw [show ("ss://".data ++ auth ++ '@' :: host ++ ':' :: natToChars port ++ '#' :: frag : LC) =
    's' :: 's' :: ':' :: '/' :: '/' ::
      (auth ++ '@' :: (host ++ ':' :: (natToChars port ++ '#' :: frag))) by simp]
  have h1 : (auth ++ '@' :: (host ++ ':' :: (natToChars port ++ '#' :: frag))).takeWhile
      (· ≠ '@') = auth := by
    apply takeWhile_append_stop
    · intro x hx; simp [haAt x hx]
    · simp
  have h2 : (auth ++ '@' :: (host ++ ':' :: (natToChars port ++ '#' :: frag))).drop
      (auth.length + 1) = host ++ ':' :: (natToChars port ++ '#' :: frag) :=
    drop_len_succ_append _ _ _
  have h3 : (host ++ ':' :: (natToChars port ++ '#' :: frag)).takeWhile (· ≠ ':') = host := by
    apply takeWhile_append_stop
    · intro x hx; simp [hhC x hx]
    · simp
  have h4 : (host ++ ':' :: (natToChars port ++ '#' :: frag)).drop (host.length + 1) =
      natToChars port ++ '#' :: frag := drop_len_succ_append _ _ _
  have h5 : (natToChars port ++ '#' :: frag).takeWhile (·.isDigit) = natToChars port := by
    apply takeWhile_append_stop
    · exact natToChars_digits port
    · decide
  have h6 : (natToChars port ++ '#' :: frag).drop (natToChars port).length = '#' :: frag := by
    rw [List.drop_left]
  have h7 : frag.takeWhile (· ≠ '\n') = frag := by
    apply List.takeWhile_eq_self_iff.mpr
    intro x hx
    simpa using hfNl x hx
  simp only [parseSsUrl, h1, h2, h3, h4, h5, h6, h7]
  rw [if_neg (by simp [haNe, List.length_append]),
    if_neg (by simp [hhNe, List.length_append]),
    if_neg (by simp [natToChars_ne_nil port])]
  rw [if_neg (by simpa using hfNe)]
  rw [digitsVal_natToChars port]

/-! ### Decoding an assembled vmess line -/

theorem isPrefixOf_append_self (l r : LC) : l.isPrefixOf (l ++ r) = true := by
  induction l with
  | nil => simp [List.isPrefixOf]
  | cons c cs ih => simp [List.isPrefixOf_cons₂, ih]

theorem parseVmessUrl_build (payload : LC) (obj : List (LC × Jv))
    (hA : ∀ c ∈ payload, c.toNat < 128)
    (hP : parseJsonObj payload = some obj) :
    parseVmessUrl ("vmess://".data ++ b64encode (utf8Encode payload)) =
      match pyIntOfJv (pyGetD obj "port".data (.jnum 0)),
            pyIntOfJv (pyGetD obj "aid".data (.jnum 0)) with
      | some port, some aid =>
        some (.vm
          (pyGetD obj "add".data (.jstr []))
          port
          (pyGetD obj "id".data (.jstr []))
          aid
          (pyGetD obj "scy".data (.jstr "auto".data))
          (pyGetD obj "net".data (.jstr "tcp".data))
          (pyGetD obj "path".data (.jstr "/".data))
          (pyGetD obj "host".data (.jstr []))
          (pyGetD obj "tls".data (.jstr []) = .jstr "tls".data)
          (pyGetD obj "ps".data
            (.jstr ("VMess-".data ++ jvDisplay (pyGetD obj "add".data (.jstr []))))))
      | _, _ => none := by
  unfold parseVmessUrl
  rw [if_pos (by simpa using isPrefixOf_append_self "vmess://".data _)]
  rw [show ("vmess://".data ++ b64encode (utf8Encode payload)).drop 8 =
    b64encode (utf8Encode payload) from List.drop_left "vmess://".data _]
  rw [b64utf8_roundtrip payload hA]
  dsimp only
  rw [hP]

/-! ### Decoding an assembled trojan line -/

theorem pyUrlsplit_trojan (pwd host ds query frag : LC)
    (hpw : ∀ c ∈ pwd, c ≠ '/' ∧ c ≠ '?' ∧ c ≠ '#')
    (hh : ∀ c ∈ host, c ≠ '/' ∧ c ≠ '?' ∧ c ≠ '#')
    (hds : ∀ c ∈ ds, c.isDigit = true)
    (hq : ∀ c ∈ query, c ≠ '#') :
    pyUrlsplit ("trojan://".data ++
        (pwd ++ '@' :: (host ++ ':' :: (ds ++ '?' :: (query ++ '#' :: frag))))) =
      { scheme := "trojan".data, netloc := pwd ++ '@' :: (host ++ ':' :: ds),
        path := [], query := query, fragment := frag } := by
  have hstop : ∀ c : Char, c.isDigit = true → (¬(c = '/' ∨ c = '?' ∨ c = '#')) := by
    intro c h
    simp only [Char.isDigit, Bool.and_eq_true, decide_eq_true_eq] at h
    rintro (rfl | rfl | rfl) <;> simp [Char.le_def] at h <;> omega
  have hnl1 : ((pwd ++ '@' :: (host ++ ':' :: (ds ++ '?' :: (query ++ '#' :: frag)))).takeWhile
      (fun c => ¬(c = '/' ∨ c = '?' ∨ c = '#'))) = pwd ++ '@' :: (host ++ ':' :: ds) := by
    rw [takeWhile_append_all _ _ (by intro c hc; simp [hpw c hc]),
      takeWhile_cons_true _ _ (by decide),
      takeWhile_append_all _ _ (by intro c hc; simp [hh c hc]),
      takeWhile_cons_true _ _ (by decide),
      takeWhile_append_stop _ _ _ (by intro c hc; simp [hstop c (hds c hc)]) (by decide)]
  have hnl2 : ((pwd ++ '@' :: (host ++ ':' :: (ds ++ '?' :: (query ++ '#' :: frag)))).dropWhile
      (fun c => ¬(c = '/' ∨ c = '?' ∨ c = '#'))) = '?' :: (query ++ '#' :: frag) := by
    rw [dropWhile_append_all _ _ (by intro c hc; simp [hpw c hc]),
      show ('@' :: (host ++ ':' :: (ds ++ '?' :: (query ++ '#' :: frag)))).dropWhile
        (fun c => ¬(c = '/' ∨ c = '?' ∨ c = '#')) =
        (host ++ ':' :: (ds ++ '?' :: (query ++ '#' :: frag))).dropWhile
        (fun c => ¬(c = '/' ∨ c = '?' ∨ c = '#')) by simp [List.dropWhile_cons],
      dropWhile_append_all _ _ (by intro c hc; simp [hh c hc]),
      show (':' :: (ds ++ '?' :: (query ++ '#' :: frag))).dropWhile
        (fun c => ¬(c = '/' ∨ c = '?' ∨ c = '#')) =
        (ds ++ '?' :: (query ++ '#' :: frag)).dropWhile
        (fun c => ¬(c = '/' ∨ c = '?' ∨ c = '#')) by simp [List.dropWhile_cons],
      dropWhile_append_all _ _ (by intro c hc; simp [hstop c (hds c hc)])]
    simp [List.dropWhile_cons]
  have hbf : (('?' :: (query ++ '#' :: frag)).takeWhile (· ≠ '#')) = '?' :: query := by
    rw [takeWhile_cons_true _ _ (by decide),
      takeWhile_append_stop _ _ _ (by intro c hc; simp [hq c hc]) (by decide)]
  have hpre : ("trojan://".data ++
      (pwd ++ '@' :: (host ++ ':' :: (ds ++ '?' :: (query ++ '#' :: frag))))).takeWhile
      (· ≠ ':') = "trojan".data := rfl
  simp only [pyUrlsplit, hpre]
  rw [if_pos (by
    refine ⟨?_, by decide, by decide, by decide⟩
    simp [List.length_append])]
  rw [if_pos (by
    refine ⟨?_, by decide, by decide, by decide⟩
    simp [List.length_append])]
  have hdrop : List.drop ((['t', 'r', 'o', 'j', 'a', 'n'] : LC).length + 1)
      (['t', 'r', 'o', 'j', 'a', 'n', ':', '/', '/'] ++
        (pwd ++ '@' :: (host ++ ':' :: (ds ++ '?' :: (query ++ '#' :: frag))))) =
      '/' :: '/' :: (pwd ++ '@' :: (host ++ ':' :: (ds ++ '?' :: (query ++ '#' :: frag)))) := rfl
  have hlow : toLowerAscii ['t', 'r', 'o', 'j', 'a', 'n'] = "trojan".data := rfl
  simp only [hdrop, hlow, hnl1, hnl2, hbf]
  have hpath : List.takeWhile (fun x => decide (x ≠ '?')) ('?' :: query) = ([] : LC) :=
    takeWhile_cons_false _ _ (by decide)
  simp only [hpath]
  rw [if_pos (by simp), if_pos (by simp [List.length_append])]
  rw [show ('?' :: (query ++ '#' :: frag) : LC) = ('?' :: query) ++ '#' :: frag by simp,
    drop_len_succ_append ('?' :: query) '#' frag]
  simp


theorem isDigit_ne_special (c : Char) (h : c.isDigit = true) :
    c ≠ '@' ∧ c ≠ ':' ∧ c ≠ '/' ∧ c ≠ '?' ∧ c ≠ '#' := by
  refine ⟨?_, ?_, ?_, ?_, ?_⟩ <;> (rintro rfl; exact absurd h (by decide))

theorem rpartition_build (pwd Y : LC) (hY : ∀ c ∈ Y, c ≠ '@') :
    rpartitionChar '@' (pwd ++ '@' :: Y) = (some pwd, Y) := by
  unfold rpartitionChar
  have hrev : (pwd ++ '@' :: Y).reverse = Y.reverse ++ '@' :: pwd.reverse := by
    simp
  rw [hrev]
  have hta : (Y.reverse ++ '@' :: pwd.reverse).takeWhile (· ≠ '@') = Y.reverse := by
    apply takeWhile_append_stop
    · intro c hc; simp [hY c (List.mem_reverse.mp hc)]
    · simp
  rw [hta]
  rw [if_neg (by simp [List.length_append]; omega)]
  have hidx : (pwd ++ '@' :: Y).length - Y.reverse.length - 1 = pwd.length := by
    simp [List.length_append]
    omega
  rw [hidx]
  rw [show (pwd ++ '@' :: Y : LC).take pwd.length = pwd from List.take_left pwd _]
  simp

theorem urlUsername_eq (p : UrlParts) (pwd Y : LC) (hn : p.netloc = pwd ++ '@' :: Y)
    (hY : ∀ c ∈ Y, c ≠ '@') (hpwd : ∀ c ∈ pwd, c ≠ ':') :
    urlUsername p = some pwd := by
  unfold urlUsername
  rw [hn, rpartition_build pwd Y hY]
  simp only [Option.map_some']
  congr 1
  apply List.takeWhile_eq_self_iff.mpr
  intro c hc
  simp [hpwd c hc]

theorem urlHostname_eq (p : UrlParts) (pwd host ds : LC)
    (hn : p.netloc = pwd ++ '@' :: (host ++ ':' :: ds))
    (hY : ∀ c ∈ host ++ ':' :: ds, c ≠ '@')
    (hhne : host ≠ []) (hhc : ∀ c ∈ host, c ≠ ':') :
    urlHostname p = some (toLowerAscii host) := by
  unfold urlHostname
  rw [hn, rpartition_build pwd _ hY]
  have ht : (host ++ ':' :: ds).takeWhile (· ≠ ':') = host := by
    apply takeWhile_append_stop
    · intro c hc; simp [hhc c hc]
    · simp
  simp only [ht]
  rw [if_neg hhne]

theorem urlPort_eq (p : UrlParts) (pwd host : LC) (port : Nat)
    (hn : p.netloc = pwd ++ '@' :: (host ++ ':' :: natToChars port))
    (hY : ∀ c ∈ host ++ ':' :: natToChars port, c ≠ '@')
    (hhc : ∀ c ∈ host, c ≠ ':') (hport2 : port ≤ 65535) :
    urlPort p = .ok (some port) := by
  unfold urlPort
  rw [hn, rpartition_build pwd _ hY]
  have ht : (host ++ ':' :: natToChars port).takeWhile (· ≠ ':') = host := by
    apply takeWhile_append_stop
    · intro c hc; simp [hhc c hc]
    · simp
  simp only [ht]
  rw [if_neg (by simp [List.length_append])]
  rw [drop_len_succ_append host ':' (natToChars port)]
  rw [if_neg (by simp [natToChars_ne_nil port])]
  rw [if_pos (List.all_eq_true.mpr (fun c hc => natToChars_digits port c hc))]
  rw [digitsVal_natToChars port]
  simp [hport2]

theorem parseTrojanUrl_build (pwd host : LC) (port : Nat) (query frag : LC)
    (hpw : ∀ c ∈ pwd, c ≠ '/' ∧ c ≠ '?' ∧ c ≠ '#' ∧ c ≠ ':')
    (hhne : host ≠ [])
    (hh : ∀ c ∈ host, c ≠ '/' ∧ c ≠ '?' ∧ c ≠ '#' ∧ c ≠ ':' ∧ c ≠ '@')
    (hq : ∀ c ∈ query, c ≠ '#')
    (hfne : frag ≠ [])
    (hport : 0 < port) (hport2 : port ≤ 65535) :
    parseTrojanUrl ("trojan://".data ++
        (pwd ++ '@' :: (host ++ ':' :: (natToChars port ++ '?' :: (query ++ '#' :: frag))))) =
      some (.tr (some (toLowerAscii host)) port (some pwd)
        (match qsFirst query "sni".data with
         | some v => some v
         | none => some (toLowerAscii host))
        (pyUnquote frag)) := by
  have hY : ∀ c ∈ host ++ ':' :: natToChars port, c ≠ '@' := by
    intro c hc
    rcases List.mem_append.mp hc with hc | hc
    · exact (hh c hc).2.2.2.2
    · rcases List.mem_cons.mp hc with rfl | hc
      · decide
      · exact (isDigit_ne_special c (natToChars_digits port c hc)).1
  have hsplit := pyUrlsplit_trojan pwd host (natToChars port) query frag
    (fun c hc => ⟨(hpw c hc).1, (hpw c hc).2.1, (hpw c hc).2.2.1⟩)
    (fun c hc => ⟨(hh c hc).1, (hh c hc).2.1, (hh c hc).2.2.1⟩)
    (natToChars_digits port) hq
  unfold parseTrojanUrl
  simp only [hsplit]
  rw [if_neg (by simp)]
  rw [urlPort_eq _ pwd host port rfl hY (fun c hc => (hh c hc).2.2.2.1) hport2]
  obtain ⟨k, rfl⟩ : ∃ k, port = k + 1 := ⟨port - 1, by omega⟩
  rw [urlHostname_eq _ pwd host (natToChars (k + 1)) rfl hY hhne
    (fun c hc => (hh c hc).2.2.2.1)]
  rw [urlUsername_eq _ pwd (host ++ ':' :: natToChars (k + 1)) rfl hY
    (fun c hc => (hpw c hc).2.2.2)]
  rw [if_pos (by simpa using hfne)]
  rfl

/-! ## Claim C5 -/

/-- Claim C5 (amended): on the trojan outbound with server, server_port
and password but no tls block, the validator reports exactly one error,
whose text is "Trojan outbound 0: TLS is required" (not "TLS must be
enabled." as claimed); the only other finding is a password-length
warning. -/
theorem trojan_missing_tls_single_error :
    validateOutbounds [c5Outbound] =
      { errors := ["Trojan outbound 0: TLS is required".data],
        warnings := ["Trojan outbound 0: password should be at least 16 characters".data],
        info := [] } := by
  decide

/-- Claim C5 counterexample: the single error the validator emits for
the tls-less trojan outbound is "Trojan outbound 0: TLS is required";
the claimed text "Trojan outbound 0: TLS must be enabled." appears
nowhere in the report. -/
theorem trojan_tls_error_text_differs :
    (validateOutbounds [c5Outbound]).errors =
      ["Trojan outbound 0: TLS is required".data] ∧
    "Trojan outbound 0: TLS must be enabled.".data ∉
      (validateOutbounds [c5Outbound]).errors ∧
    "Trojan outbound 0: TLS must be enabled.".data ∉
      (validateOutbounds [c5Outbound]).warnings := by
  decide

/-! ## Claim C6 -/

/-- Claim C6 (amended): config generation succeeds exactly when every
dict key the generator reads is present — host, country, city and the
protocol's port entry; an empty (but present) host never causes a
failure, and a missing ports entry fails even with a non-empty host. -/
theorem generate_ok_iff_keys_present :
    ∀ (s : SDict) (rng : Nat → Nat),
      (generateShadowsocksConfig s rng).isOk =
        (s.host.isSome && s.country.isSome && s.city.isSome &&
          (match s.ports with
           | some p => p.shadowsocks.isSome
           | none => false)) ∧
      (generateVmessConfig s rng).isOk =
        (s.host.isSome && s.country.isSome && s.city.isSome &&
          (match s.ports with
           | some p => p.vmess.isSome
           | none => false)) := by
  intro s rng
  rcases s with ⟨h, co, ci, po⟩
  refine ⟨?_, ?_⟩ <;>
    (rcases po with _ | ⟨ps, pv, pt⟩ <;>
      rcases h with _ | h <;> rcases co with _ | co <;> rcases ci with _ | ci <;>
      first
        | rfl
        | (rcases ps with _ | ps <;> rcases pv with _ | pv <;> rfl))

/-- Claim C6 counterexample: a record with the non-empty host "h" and no
ports key makes `generate_shadowsocks_config` raise (contradicting
"generation fails only when host is empty"), while a record whose host
is the empty string generates successfully. -/
theorem generate_failure_not_host_empty :
    generateShadowsocksConfig c6NoPorts rngZero = Except.error () ∧
    (generateShadowsocksConfig c6EmptyHost rngZero).isOk = true :=
  ⟨rfl, rfl⟩

/-! ## Claim C7 -/

/-- Claim C7 (amended): the shadowsocks generator always draws a fresh
password of exactly 16 characters from `ascii_letters + digits +
"!@#$%^&*"` — at least 16 characters as claimed, but from an alphabet
that also contains the eight punctuation characters, not only letters
and digits. -/
theorem ss_password_len16_charset :
    ∀ (s : SDict) (rng : Nat → Nat) (c : SSConfig),
      generateShadowsocksConfig s rng = .ok c →
      c.password.length = 16 ∧ ∀ ch ∈ c.password, ch ∈ pwdChars := by
  intro s rng c hgen
  rcases s with ⟨h, co, ci, po⟩
  rcases po with _ | ⟨ps, pv, pt⟩
  · rcases h with _ | h <;>
      exact absurd hgen (by simp [generateShadowsocksConfig, dget, bind, Except.bind])
  · rcases ps with _ | ps
    · rcases h with _ | h <;>
        exact absurd hgen (by simp [generateShadowsocksConfig, dget, bind, Except.bind])
    · rcases h with _ | h
      · exact absurd hgen (by simp [generateShadowsocksConfig, dget, bind, Except.bind])
      · rcases co with _ | co
        · exact absurd hgen (by simp [generateShadowsocksConfig, dget, bind, Except.bind])
        · rcases ci with _ | ci
          · exact absurd hgen (by simp [generateShadowsocksConfig, dget, bind, Except.bind])
          · obtain rfl : _ = c := by
              simpa [generateShadowsocksConfig, dget, bind, Except.bind, pure,
                Except.pure] using hgen
            exact ⟨genPassword_length 16 rng, genPassword_mem 16 rng⟩

/-- Claim C7 witness: the amended theorem at the first sample server and
the all-zero choice stream. -/
theorem ss_password_len16_charset_witness :
    c7cfg0.password.length = 16 ∧ ∀ ch ∈ c7cfg0.password, ch ∈ pwdChars :=
  ss_password_len16_charset sampleServer0 rngZero c7cfg0 (by rfl)

/-- Claim C7 counterexample: when every draw picks the charset index of
the character `!`, the generated password is sixteen `!`s — not
composed only of letters and digits as the claim states. -/
theorem ss_password_not_alphanumeric :
    (generateShadowsocksConfig sampleServer0 rngBang).toOption.map
      (fun c => decide (16 ≤ c.password.length) && c.password.all (·.isAlphanum)) =
      some false := by
  decide

/-! ## Claim C9 -/

theorem Findings.empty_app (f : Findings) : Findings.empty.app f = f := by
  cases f
  simp [Findings.app, Findings.empty]

/-- Claim C9 (amended): the report lists live on the validator instance,
not on the call: a `validate_singbox_config` call appends its findings
to whatever the instance already holds, so a second call on the same
instance inherits the first call's entries; only a fresh instance (state
`Findings.empty`) yields exactly that call's findings. -/
theorem validator_state_accumulates :
    ∀ (cfg : SingboxConfig) (st : Findings),
      (validateSingboxConfig cfg st).snd =
        st.app (validateSingboxConfig cfg Findings.empty).snd ∧
      (validateSingboxConfig cfg st).fst =
        (st.app (singboxFindings cfg)).errors.isEmpty := by
  intro cfg st
  constructor
  · show st.app (singboxFindings cfg) = st.app (Findings.empty.app (singboxFindings cfg))
    rw [Findings.empty_app]
  · rfl

/-- Claim C9 counterexample: validating the same empty document twice on
one validator instance duplicates every error — the second call's report
is the first call's errors twice over, so a second call does inherit
earlier entries. -/
theorem validator_second_call_inherits :
    (validateSingboxConfig cfg9 ((validateSingboxConfig cfg9 Findings.empty).snd)).snd.errors =
      (validateSingboxConfig cfg9 Findings.empty).snd.errors ++
        (validateSingboxConfig cfg9 Findings.empty).snd.errors ∧
    (validateSingboxConfig cfg9 ((validateSingboxConfig cfg9 Findings.empty).snd)).snd.errors ≠
      (validateSingboxConfig cfg9 Findings.empty).snd.errors := by
  decide

/-! ## Claim C2 -/

theorem pyGetD_of_none (obj : List (LC × Jv)) (k : LC) (d : Jv)
    (h : pyGet obj k = none) : pyGetD obj k d = d := by
  simp [pyGetD, h]

/-- Claim C2 (amended): `_parse_vmess_url` does NOT return a failure when
add, port or id are missing — `.get` substitutes defaults "" / "0" / "",
so any base64-encoded JSON object yields a record with host "", port 0
and uuid "" (provided the aid field, when present, is numeric). -/
theorem vmess_missing_required_defaults :
    ∀ (payload : LC) (obj : List (LC × Jv)) (aid : Int),
      (∀ c ∈ payload, c.toNat < 128) →
      parseJsonObj payload = some obj →
      pyGet obj "add".data = none →
      pyGet obj "port".data = none →
      pyGet obj "id".data = none →
      pyIntOfJv (pyGetD obj "aid".data (.jnum 0)) = some aid →
      parseVmessUrl ("vmess://".data ++ b64encode (utf8Encode payload)) =
        some (.vm (.jstr []) 0 (.jstr []) aid
          (pyGetD obj "scy".data (.jstr "auto".data))
          (pyGetD obj "net".data (.jstr "tcp".data))
          (pyGetD obj "path".data (.jstr "/".data))
          (pyGetD obj "host".data (.jstr []))
          (pyGetD obj "tls".data (.jstr []) = .jstr "tls".data)
          (pyGetD obj "ps".data (.jstr "VMess-".data))) := by
  intro payload obj aid hA hP hadd hport hid haid
  rw [parseVmessUrl_build payload obj hA hP]
  rw [pyGetD_of_none obj _ _ hadd, pyGetD_of_none obj _ _ hport,
    pyGetD_of_none obj _ _ hid, haid]
  simp [pyIntOfJv, pyIntOfChars, pyStrip, digitsVal, digitsValAux, jvDisplay]

/-- Claim C2 witness: the amended theorem at the empty JSON object. -/
theorem vmess_missing_required_defaults_witness :
    parseVmessUrl ("vmess://".data ++ b64encode (utf8Encode (jsonDumps []))) =
      some (.vm (.jstr []) 0 (.jstr []) 0 (.jstr "auto".data) (.jstr "tcp".data)
        (.jstr "/".data) (.jstr []) false (.jstr "VMess-".data)) :=
  (vmess_missing_required_defaults (jsonDumps []) [] 0 (by decide) (by decide)
    (by decide) (by decide) (by decide) (by decide)).trans (by decide)

/-- Claim C2 counterexample: the line "vmess://e30=" — base64 of the
empty object "{}", which has no add, port or id field — decodes to a
record rather than producing a failure. -/
theorem vmess_empty_object_decodes :
    parseVmessUrl "vmess://e30=".data =
      some (.vm (.jstr []) 0 (.jstr []) 0 (.jstr "auto".data) (.jstr "tcp".data)
        (.jstr "/".data) (.jstr []) false (.jstr "VMess-".data)) := by
  decide

/-! ## Claim C8 -/

theorem b64core_nopad :
    ∀ (s : LC), (∀ c ∈ s, isB64Data c = true) →
      ∀ (quad : List Nat) (pads : Nat), (quad.length + s.length) % 4 ≠ 0 →
      b64core s quad pads = none
  | [], _, quad, pads, hmod => by
    have hq : quad ≠ [] := by
      intro he
      subst he
      simp at hmod
    simp [b64core, hq]
  | c :: rest, h, quad, pads, hmod => by
    have hc := h c (List.mem_cons_self _ _)
    obtain ⟨v, hv⟩ : ∃ v, dec6 c = some v := by
      simpa [isB64Data, Option.isSome_iff_exists] using hc
    have hne : c ≠ '=' := by
      intro he
      subst he
      exact absurd hc (by decide)
    have hrest : ∀ x ∈ rest, isB64Data x = true :=
      fun x hx => h x (List.mem_cons_of_mem _ hx)
    by_cases h3 : quad.length = 3
    · rw [b64core_data4 _ _ _ _ _ hne hv h3,
        b64core_nopad rest hrest [] 0 (by simp at hmod ⊢; omega)]
      rfl
    · rw [b64core_data _ _ _ _ _ hne hv h3]
      exact b64core_nopad rest hrest (quad ++ [v]) 0
        (by simp [List.length_append] at hmod ⊢; omega)

/-- On input made only of alphabet characters — no `=` at all, so no
padding run ever completes — `base64.b64decode` raises unless the
character count is a multiple of four. -/
theorem b64decode_nopad (s : LC) (h : ∀ c ∈ s, isB64Data c = true)
    (hmod : s.length % 4 ≠ 0) : b64decode s = none := by
  unfold b64decode
  split
  · exact b64core_nopad s h [] 0 (by simpa using hmod)
  · rfl

/-- Claim C8 (amended): base64 decoding in the shadowsocks line parser
does NOT tolerate missing padding — for a userinfo made of alphabet
characters with no `=` padding at all whose length is not a multiple of
four (in particular a valid encoding with its padding stripped),
`base64.b64decode` raises and the whole line fails to parse. -/
theorem ss_decode_requires_padding :
    ∀ auth : LC, auth ≠ [] → (∀ c ∈ auth, isB64Data c = true) →
      auth.length % 4 ≠ 0 →
      parseSsUrl ("ss://".data ++ auth ++ '@' :: "1.2.3.4".data ++
        ':' :: natToChars 8388 ++ '#' :: "Test".data) = none := by
  intro auth hne hdata hlen
  have hat : ∀ c ∈ auth, c ≠ '@' := by
    intro c hc he
    subst he
    exact absurd (hdata _ hc) (by decide)
  rw [parseSsUrl_build auth "1.2.3.4".data 8388 "Test".data hne hat
    (by decide) (by decide) (by decide) (by decide)]
  rw [b64decode_nopad auth hdata hlen]
  rfl

/-- Claim C8 witness: the amended theorem at the 42-character unpadded
encoding of "chacha20-ietf-poly1305:12345678". -/
theorem ss_decode_requires_padding_witness :
    parseSsUrl ("ss://".data ++ "Y2hhY2hhMjAtaWV0Zi1wb2x5MTMwNToxMjM0NTY3OA".data ++
      '@' :: "1.2.3.4".data ++ ':' :: natToChars 8388 ++ '#' :: "Test".data) = none :=
  ss_decode_requires_padding "Y2hhY2hhMjAtaWV0Zi1wb2x5MTMwNToxMjM0NTY3OA".data
    (by decide) (by decide) (by decide)

/-- Claim C8 counterexample: stripping the "==" padding from an
otherwise valid ss:// line makes parsing fail, while the padded line
parses; so decoding does not succeed "regardless of padding". -/
theorem ss_unpadded_decode_fails_concrete :
    parseSsUrl "ss://Y2hhY2hhMjAtaWV0Zi1wb2x5MTMwNToxMjM0NTY3OA@1.2.3.4:8388#Test".data =
      none ∧
    parseSsUrl "ss://Y2hhY2hhMjAtaWV0Zi1wb2x5MTMwNToxMjM0NTY3OA==@1.2.3.4:8388#Test".data =
      some (.ss "1.2.3.4".data 8388 "chacha20-ietf-poly1305".data
        "12345678".data "Test".data) := by
  decide

/-! ## Claim C3 -/

theorem filter_parse_partition (ls : List LC) :
    (ls.filter (fun l => (parseLine l).isSome)).length +
      (ls.filter (fun l => (parseLine l).isNone)).length = ls.length := by
  induction ls with
  | nil => rfl
  | cons l rest ih =>
    simp only [List.filter_cons]
    cases h : parseLine l <;> simp [h, ← ih] <;> omega

theorem decodeAllGo_length (source : LC) :
    ∀ ls : List LC, (decodeAllGo source ls).length =
      (((ls.map pyStrip).filter (· ≠ [])).filter
        (fun l => (parseLine l).isSome)).length := by
  intro ls
  induction ls with
  | nil => rfl
  | cons l rest ih =>
    simp only [decodeAllGo, List.map_cons, List.filter_cons]
    by_cases hb : pyStrip l = []
    · simp [hb, ih]
    · cases hp : parseLine (pyStrip l)
      · simp [hb, hp, ih]
      · simp [hb, hp, ih]

theorem decodeAllGo_mem (source : LC) :
    ∀ (ls : List LC) (x : Sourced), x ∈ decodeAllGo source ls →
      x.source = source ∧ ∃ l ∈ ls, parseLine (pyStrip l) = some x.record := by
  intro ls
  induction ls with
  | nil => intro x hx; simp [decodeAllGo] at hx
  | cons l rest ih =>
    intro x hx
    simp only [decodeAllGo] at hx
    by_cases hb : pyStrip l = []
    · rw [if_pos hb] at hx
      obtain ⟨hs, l2, hl2, hp⟩ := ih x hx
      exact ⟨hs, l2, List.mem_cons_of_mem _ hl2, hp⟩
    · rw [if_neg hb] at hx
      cases hp : parseLine (pyStrip l) with
      | none =>
        rw [hp] at hx
        obtain ⟨hs, l2, hl2, hp2⟩ := ih x hx
        exact ⟨hs, l2, List.mem_cons_of_mem _ hl2, hp2⟩
      | some r =>
        rw [hp] at hx
        rcases List.mem_cons.mp hx with rfl | hx
        · exact ⟨rfl, l, List.mem_cons_self _ _, hp⟩
        · obtain ⟨hs, l2, hl2, hp2⟩ := ih x hx
          exact ⟨hs, l2, List.mem_cons_of_mem _ hl2, hp2⟩

/-- Claim C3 (amended): the subscription line loop returns ONLY the
successfully decoded records — exactly N − M of them, each tagged with
the source and backed by some attempted line — and produces no record,
count or list for the M failures, which are skipped silently. -/
theorem decodeAll_returns_n_minus_m :
    ∀ (content source : LC),
      (decodeAllLines content source).length + malformedCount content =
        nonBlankCount content ∧
      ∀ x ∈ decodeAllLines content source, x.source = source ∧
        ∃ l ∈ splitOnChar '\n' (pyStrip content), parseLine (pyStrip l) = some x.record := by
  intro content source
  constructor
  · have h1 := decodeAllGo_length source (splitOnChar '\n' (pyStrip content))
    have h2 := filter_parse_partition (lineAttempts content)
    show (decodeAllGo source (splitOnChar '\n' (pyStrip content))).length +
      malformedCount content = nonBlankCount content
    rw [h1]
    exact h2
  · intro x hx
    exact decodeAllGo_mem source _ x hx

/-- Claim C3 counterexample: appending a malformed line ("garbage") to a
one-line subscription leaves the returned list unchanged — the failure
is skipped without any reported count or entry — even though the line
counts N and M differ between the two inputs. -/
theorem decodeAll_silent_on_failures :
    decodeAllLines "ss://YWVzOnB3ZA==@h:80#n".data "src".data =
      decodeAllLines "ss://YWVzOnB3ZA==@h:80#n\ngarbage".data "src".data ∧
    malformedCount "ss://YWVzOnB3ZA==@h:80#n".data = 0 ∧
    malformedCount "ss://YWVzOnB3ZA==@h:80#n\ngarbage".data = 1 ∧
    nonBlankCount "ss://YWVzOnB3ZA==@h:80#n".data = 1 ∧
    nonBlankCount "ss://YWVzOnB3ZA==@h:80#n\ngarbage".data = 2 := by
  decide

/-! ## Claim C4 -/

theorem subscriptionTally_pos :
    ∀ ls : List LC, 0 < (subscriptionTally ls).fst ↔
      ∃ l ∈ ls, pyStrip l ≠ [] ∧ validateProxyUrl (pyStrip l) = true := by
  intro ls
  induction ls with
  | nil => simp [subscriptionTally]
  | cons l rest ih =>
    simp only [subscriptionTally]
    by_cases hb : pyStrip l = []
    · rw [if_pos hb]
      constructor
      · intro h
        obtain ⟨l2, hl2, h2⟩ := ih.mp h
        exact ⟨l2, List.mem_cons_of_mem _ hl2, h2⟩
      · rintro ⟨l2, hl2, hne, hv⟩
        rcases List.mem_cons.mp hl2 with rfl | hl2
        · exact absurd hb hne
        · exact ih.mpr ⟨l2, hl2, hne, hv⟩
    · rw [if_neg hb]
      by_cases hv : validateProxyUrl (pyStrip l) = true
      · rw [if_pos hv]
        constructor
        · intro _
          exact ⟨l, List.mem_cons_self _ _, hb, hv⟩
        · intro _
          exact Nat.succ_pos _
      · rw [if_neg hv]
        constructor
        · intro h
          obtain ⟨l2, hl2, h2⟩ := ih.mp h
          exact ⟨l2, List.mem_cons_of_mem _ hl2, h2⟩
        · rintro ⟨l2, hl2, hne, hvv⟩
          rcases List.mem_cons.mp hl2 with rfl | hl2
          · exact absurd hvv hv
          · exact ih.mpr ⟨l2, hl2, hne, hvv⟩

/-- Claim C4 (amended): `validate_subscription_format` accepts ONLY
base64-encoded content — when the document base64/UTF-8-decodes, the
call succeeds iff some stripped line validates; there is no plain-text
fallback (a non-base64 document fails with a decode error, see the
counterexample). -/
theorem validateSubscription_base64_iff_valid_line :
    ∀ (content decoded : LC) (st : Findings),
      (b64decode content).bind utf8Decode = some decoded →
      ((validateSubscriptionFormat content st).fst = true ↔
        ∃ l ∈ splitOnChar '\n' (pyStrip decoded),
          pyStrip l ≠ [] ∧ validateProxyUrl (pyStrip l) = true) := by
  intro content decoded st hdec
  unfold validateSubscriptionFormat
  rw [hdec]
  dsimp only
  by_cases h0 : (subscriptionTally (splitOnChar '\n' (pyStrip decoded))).fst = 0
  · rw [if_pos h0]
    apply iff_of_false (by simp)
    rintro ⟨l, hl, hne, hv⟩
    exact absurd ((subscriptionTally_pos _).mpr ⟨l, hl, hne, hv⟩) (by omega)
  · rw [if_neg h0]
    exact iff_of_true rfl ((subscriptionTally_pos _).mp (by omega))

/-- Claim C4 witness: the amended theorem on the base64 encoding of one
valid trojan line. -/
theorem validateSubscription_base64_iff_valid_line_witness :
    (validateSubscriptionFormat (b64encode (utf8Encode "trojan://pwd@h:443".data))
      Findings.empty).fst = true :=
  (validateSubscription_base64_iff_valid_line _ "trojan://pwd@h:443".data
    Findings.empty (by decide)).mpr (by decide)

/-- Claim C4 counterexample: the plain-text document
"trojan://pwd@h:443\n" contains a line that `_validate_proxy_url`
accepts, yet the validator rejects the whole document with "Failed to
decode subscription" — so there is no plain-text fallback. -/
theorem validateSubscription_rejects_plain_text :
    validateProxyUrl "trojan://pwd@h:443".data = true ∧
    (validateSubscriptionFormat "trojan://pwd@h:443\n".data Findings.empty).fst = false ∧
    (validateSubscriptionFormat "trojan://pwd@h:443\n".data Findings.empty).snd.errors =
      ["Failed to decode subscription".data] := by
  decide

/-! ## Claim C10 -/

theorem Findings.app_errors (a b : Findings) :
    (a.app b).errors = a.errors ++ b.errors := rfl

theorem validateOutbound_vmess_errors (j : Nat) (s : SDict) (rng : Nat → Nat)
    (ob : Outbound) (h : singboxVmessOutbound s rng = .ok ob) :
    (validateOutbound j ob).errors = [] := by
  rcases s with ⟨hs, co, ci, po⟩
  rcases hs with _ | host
  · exact absurd h (by simp [singboxVmessOutbound, dget, bind, Except.bind])
  rcases po with _ | ⟨ps, pv, pt⟩
  · exact absurd h (by simp [singboxVmessOutbound, dget, bind, Except.bind])
  rcases pv with _ | vmPort
  · exact absurd h (by simp [singboxVmessOutbound, dget, bind, Except.bind])
  rcases co with _ | country
  · exact absurd h (by simp [singboxVmessOutbound, dget, bind, Except.bind])
  obtain rfl : _ = ob := by
    simpa [singboxVmessOutbound, dget, bind, Except.bind, pure, Except.pure] using h
  have hu := pythonUUIDValid_genUUID4 rng
  simp only [validateOutbound, validateVmess, hu]
  rfl

theorem validateOutbound_ss_errors (j : Nat) (s : SDict) (rng : Nat → Nat)
    (ob : Outbound) (h : singboxSsOutbound s rng = .ok ob) :
    (validateOutbound j ob).errors = [] := by
  rcases s with ⟨hs, co, ci, po⟩
  rcases hs with _ | host
  · exact absurd h (by simp [singboxSsOutbound, dget, bind, Except.bind])
  rcases po with _ | ⟨ps, pv, pt⟩
  · exact absurd h (by simp [singboxSsOutbound, dget, bind, Except.bind])
  rcases ps with _ | ssPort
  · exact absurd h (by simp [singboxSsOutbound, dget, bind, Except.bind])
  rcases co with _ | country
  · exact absurd h (by simp [singboxSsOutbound, dget, bind, Except.bind])
  obtain rfl : _ = ob := by
    simpa [singboxSsOutbound, dget, bind, Except.bind, pure, Except.pure] using h
  simp only [validateOutbound, validateShadowsocks, genPassword_length]
  rfl

theorem validateOutboundsGo_errors_all :
    ∀ l : List Outbound, (∀ ob ∈ l, ∀ j, (validateOutbound j ob).errors = []) →
      ∀ i, (validateOutboundsGo i l).errors = [] := by
  intro l
  induction l with
  | nil => intro _ _; rfl
  | cons ob rest ih =>
    intro h i
    show ((validateOutbound i ob).app (validateOutboundsGo (i + 1) rest)).errors = []
    rw [Findings.app_errors, h ob (List.mem_cons_self _ _) i,
      ih (fun x hx => h x (List.mem_cons_of_mem _ hx)) (i + 1)]
    rfl

theorem singboxOutboundsGo_isOk (rngU rngP : Nat → Nat → Nat) :
    ∀ servers : List SDict,
      (∀ s ∈ servers, s.host.isSome = true ∧ s.country.isSome = true ∧
        (match s.ports with
         | some p => p.shadowsocks.isSome = true ∧ p.vmess.isSome = true
         | none => False)) →
      ∀ i, (singboxOutboundsGo rngU rngP servers i).isOk = true := by
  intro servers
  induction servers with
  | nil => intro _ _; rfl
  | cons s rest ih =>
    intro h i
    obtain ⟨hh, hc, hp⟩ := h s (List.mem_cons_self _ _)
    rcases s with ⟨hs, co, ci, po⟩
    rcases hs with _ | host
    · simp at hh
    rcases co with _ | country
    · simp at hc
    rcases po with _ | ⟨ps, pv, pt⟩
    · exact hp.elim
    rcases ps with _ | ssPort
    · simp at hp
    rcases pv with _ | vmPort
    · simp at hp
    have htail := ih (fun x hx => h x (List.mem_cons_of_mem _ hx)) (i + 1)
    simp only [singboxOutboundsGo, singboxVmessOutbound, singboxSsOutbound,
      dget, bind, Except.bind]
    cases hGo : singboxOutboundsGo rngU rngP rest (i + 1) with
    | error e => rw [hGo] at htail; exact absurd htail (by simp [Except.isOk, Except.toBool])
    | ok tail => rfl

theorem singboxOutboundsGo_members (rngU rngP : Nat → Nat → Nat) :
    ∀ (servers : List SDict) (i : Nat) (obs : List Outbound),
      (∀ s ∈ servers, s.host.isSome = true ∧ s.country.isSome = true ∧
        (match s.ports with
         | some p => p.shadowsocks.isSome = true ∧ p.vmess.isSome = true
         | none => False)) →
      singboxOutboundsGo rngU rngP servers i = .ok obs →
      ∀ ob ∈ obs, ∀ j, (validateOutbound j ob).errors = [] := by
  intro servers
  induction servers with
  | nil =>
    intro i obs _ hGo
    have h2 : Except.ok ([] : List Outbound) = (Except.ok obs : Except Unit (List Outbound)) := hGo
    obtain rfl : ([] : List Outbound) = obs := by injection h2
    intro ob hob
    simp at hob
  | cons s rest ih =>
    intro i obs h hGo
    obtain ⟨hh, hc, hp⟩ := h s (List.mem_cons_self _ _)
    rcases s with ⟨hs, co, ci, po⟩
    rcases hs with _ | host
    · simp at hh
    rcases co with _ | country
    · simp at hc
    rcases po with _ | ⟨ps, pv, pt⟩
    · exact hp.elim
    rcases ps with _ | ssPort
    · simp at hp
    rcases pv with _ | vmPort
    · simp at hp
    simp only [singboxOutboundsGo, bind, Except.bind] at hGo
    cases hGo2 : singboxOutboundsGo rngU rngP rest (i + 1) with
    | error e =>
      rw [show (singboxVmessOutbound
          ⟨some host, some country, ci, some ⟨some ssPort, some vmPort, pt⟩⟩
          (rngU i)) = Except.ok _ from rfl] at hGo
      rw [show (singboxSsOutbound
          ⟨some host, some country, ci, some ⟨some ssPort, some vmPort, pt⟩⟩
          (rngP i)) = Except.ok _ from rfl] at hGo
      rw [hGo2] at hGo
      exact absurd hGo (by simp)
    | ok tail =>
      rw [show (singboxVmessOutbound
          ⟨some host, some country, ci, some ⟨some ssPort, some vmPort, pt⟩⟩
          (rngU i)) = Except.ok _ from rfl] at hGo
      rw [show (singboxSsOutbound
          ⟨some host, some country, ci, some ⟨some ssPort, some vmPort, pt⟩⟩
          (rngP i)) = Except.ok _ from rfl] at hGo
      rw [hGo2] at hGo
      obtain rfl : _ = obs := by simpa using hGo
      intro ob hob j
      rcases List.mem_cons.mp hob with rfl | hob
      · exact validateOutbound_vmess_errors j
          ⟨some host, some country, ci, some ⟨some ssPort, some vmPort, pt⟩⟩
          (rngU i) _ rfl
      rcases List.mem_cons.mp hob with rfl | hob
      · exact validateOutbound_ss_errors j
          ⟨some host, some country, ci, some ⟨some ssPort, some vmPort, pt⟩⟩
          (rngP i) _ rfl
      · exact ih (i + 1) tail (fun x hx => h x (List.mem_cons_of_mem _ hx)) hGo2 ob hob j

/-- Claim C10 (amended): when every server dict has host, country and
both the vmess and shadowsocks port entries (the generator reads
`country` for the outbound tags, beyond the claimed host+ports),
`generate_singbox_config` succeeds and the generated document passes
`validate_singbox_config` on a fresh validator with zero errors. -/
theorem singbox_generated_validates :
    ∀ (servers : List SDict) (rngU rngP : Nat → Nat → Nat),
      (∀ s ∈ servers, s.host.isSome = true ∧ s.country.isSome = true ∧
        (match s.ports with
         | some p => p.shadowsocks.isSome = true ∧ p.vmess.isSome = true
         | none => False)) →
      match generateSingboxConfig servers rngU rngP with
      | .ok cfg => (singboxFindings cfg).errors = [] ∧
          (validateSingboxConfig cfg Findings.empty).fst = true
      | .error _ => False := by
  intro servers rngU rngP h
  have hOk := singboxOutboundsGo_isOk rngU rngP servers h 0
  cases hGo : singboxOutboundsGo rngU rngP servers 0 with
  | error e => rw [hGo] at hOk; exact absurd hOk (by simp [Except.isOk, Except.toBool])
  | ok obs =>
    have hgen : generateSingboxConfig servers rngU rngP =
        Except.ok (singboxOfOutbounds obs) := by
      show Bind.bind (singboxOutboundsGo rngU rngP servers 0)
        (fun obs => Except.ok (singboxOfOutbounds obs)) = Except.ok (singboxOfOutbounds obs)
      rw [hGo]
      rfl
    rw [hgen]
    have hmem : ∀ ob ∈ obs ++ [directOutbound, blockOutbound],
        ∀ j, (validateOutbound j ob).errors = [] := by
      intro ob hob j
      rcases List.mem_append.mp hob with hob | hob
      · exact singboxOutboundsGo_members rngU rngP servers 0 obs h hGo ob hob j
      rcases List.mem_cons.mp hob with rfl | hob
      · rfl
      rcases List.mem_cons.mp hob with rfl | hob
      · rfl
      · simp at hob
    have hne : obs ++ [directOutbound, blockOutbound] ≠ [] := by simp
    have hout : (validateOutbounds (obs ++ [directOutbound, blockOutbound])).errors = [] := by
      simp only [validateOutbounds]
      rw [if_neg hne]
      exact validateOutboundsGo_errors_all _ hmem 0
    have herrs : (singboxFindings (singboxOfOutbounds obs)).errors = [] := by
      show ([] : List LC) ++ (validateOutbounds (obs ++ [directOutbound, blockOutbound])).errors
        ++ ([] ++ []) = []
      rw [hout]
      rfl
    exact ⟨herrs, by
      show (Findings.empty.app _).errors.isEmpty = true
      rw [Findings.empty_app, herrs]
      rfl⟩

/-- Claim C10 witness: the amended theorem over the three sample
servers and fixed choice streams. -/
theorem singbox_generated_validates_witness :
    match generateSingboxConfig sampleServers rngZZ rngZZ with
    | .ok cfg => (singboxFindings cfg).errors = [] ∧
        (validateSingboxConfig cfg Findings.empty).fst = true
    | .error _ => False :=
  singbox_generated_validates sampleServers rngZZ rngZZ (by
    intro s hs
    rcases List.mem_cons.mp hs with rfl | hs
    · exact ⟨rfl, rfl, rfl, rfl⟩
    rcases List.mem_cons.mp hs with rfl | hs
    · exact ⟨rfl, rfl, rfl, rfl⟩
    rcases List.mem_cons.mp hs with rfl | hs
    · exact ⟨rfl, rfl, rfl, rfl⟩
    · exact absurd hs (List.not_mem_nil s))

/-- Claim C10 counterexample: a server dict with host and all three
ports but no country key makes `generate_singbox_config` raise — so
host and ports alone are not sufficient, contrary to the claim. -/
theorem singbox_missing_country_fails :
    generateSingboxConfig [c10NoCountry] rngZZ rngZZ = Except.error () ∧
    c10NoCountry.host.isSome = true ∧
    (match c10NoCountry.ports with
     | some p => p.shadowsocks.isSome = true ∧ p.vmess.isSome = true ∧
         p.trojan.isSome = true
     | none => False) :=
  ⟨rfl, rfl, rfl, rfl, rfl⟩

/-! ## Claim C1 -/

theorem utf8EncodeChar_ne_nil (c : Char) : utf8EncodeChar c ≠ [] := by
  unfold utf8EncodeChar
  dsimp only
  split
  · simp
  split
  · simp
  split <;> simp

theorem utf8Encode_ne_nil (s : LC) (h : s ≠ []) : utf8Encode s ≠ [] := by
  cases s with
  | nil => exact absurd rfl h
  | cons c r =>
    show utf8EncodeChar c ++ utf8Encode r ≠ []
    simp [utf8EncodeChar_ne_nil c]

theorem hexLowChars_plain : ∀ c ∈ hexLowChars, plainChar c = true := by decide

theorem genUUID4_plain (rng : Nat → Nat) : (genUUID4 rng).all plainChar = true := by
  rw [List.all_eq_true]
  intro c hc
  rcases genUUID4_shape rng c hc with rfl | h
  · decide
  · exact hexLowChars_plain c h

/-- Decoding the shadowsocks line built from a config whose fields are
benign (ascii method without `:`, ascii password, non-empty host without
`:`, quote-stable remark) restores the config's fields. -/
theorem ss_roundtrip_cfg (c : SSConfig)
    (hm : ∀ ch ∈ c.method, ch.toNat < 128) (hmc : ∀ ch ∈ c.method, ch ≠ ':')
    (hpw : ∀ ch ∈ c.password, ch.toNat < 128)
    (hhne : c.server ≠ []) (hh : ∀ ch ∈ c.server, ch ≠ ':')
    (hfne : pyQuote c.remarks ≠ []) (hfnl : ∀ ch ∈ pyQuote c.remarks, ch ≠ '\n')
    (hunq : pyUnquote (pyQuote c.remarks) = c.remarks) :
    parseSsUrl (ssUriOfConfig c) = some (ssRecordOfConfig c) := by
  have hascii : ∀ ch ∈ c.method ++ ':' :: c.password, ch.toNat < 128 := by
    intro ch hch
    rcases List.mem_append.mp hch with h | h
    · exact hm ch h
    · rcases List.mem_cons.mp h with rfl | h
      · decide
      · exact hpw ch h
  have hb64ne : b64encode (utf8Encode (c.method ++ ':' :: c.password)) ≠ [] :=
    b64encode_ne_nil _ (utf8Encode_ne_nil _ (by simp))
  have hat : ∀ ch ∈ b64encode (utf8Encode (c.method ++ ':' :: c.password)), ch ≠ '@' := by
    intro ch hch he
    subst he
    exact absurd (b64encode_kept _ (utf8Encode_lt256 _ hascii) _ hch) (by decide)
  rw [show ssUriOfConfig c =
    "ss://".data ++ b64encode (utf8Encode (c.method ++ ':' :: c.password)) ++
      '@' :: c.server ++ ':' :: natToChars c.serverPort ++ '#' :: pyQuote c.remarks from rfl]
  rw [parseSsUrl_build _ _ _ _ hb64ne hat hhne hh hfne hfnl]
  rw [b64utf8_roundtrip _ hascii]
  dsimp only
  rw [takeWhile_append_stop _ _ _ (by intro x hx; simp [hmc x hx]) (by simp)]
  rw [if_neg (by simp only [List.length_append, List.length_cons]; omega)]
  rw [drop_len_succ_append]
  rw [hunq]
  rfl

/-- Decoding the vmess line built from a dumped flat object of plain
string members (with numeric `port` and `aid` texts) restores the
record the decoder reads off that object. -/
theorem vmess_roundtrip_obj (obj : List (LC × Jv))
    (hplain : ∀ m ∈ obj, plainMember m)
    (hport : ∃ n, pyIntOfJv (pyGetD obj "port".data (.jnum 0)) = some n)
    (haid : ∃ n, pyIntOfJv (pyGetD obj "aid".data (.jnum 0)) = some n) :
    parseVmessUrl (vmessUriOfConfig obj) = some (vmRecordOfConfig obj) := by
  obtain ⟨p, hp⟩ := hport
  obtain ⟨a, ha⟩ := haid
  rw [show vmessUriOfConfig obj =
    "vmess://".data ++ b64encode (utf8Encode (jsonDumps obj)) from rfl]
  rw [parseVmessUrl_build (jsonDumps obj) obj (jsonDumps_ascii obj hplain)
    (parseJsonObj_dump obj hplain)]
  rw [hp, ha]
  dsimp only
  unfold vmRecordOfConfig
  rw [hp, ha]
  rfl

/-- Decoding the trojan line built from a config whose password avoids
the URL metacharacters, whose host is lowercase and benign, and whose
remark is quote-stable restores the config's fields. -/
theorem trojan_roundtrip_cfg (c : TrojanConfig)
    (hpw : ∀ ch ∈ c.password, ch ≠ '/' ∧ ch ≠ '?' ∧ ch ≠ '#' ∧ ch ≠ ':')
    (hhne : c.remoteAddr ≠ [])
    (hh : ∀ ch ∈ c.remoteAddr, ch ≠ '/' ∧ ch ≠ '?' ∧ ch ≠ '#' ∧ ch ≠ ':' ∧ ch ≠ '@')
    (hq : ∀ ch ∈ "sni=".data ++ c.sslSni, ch ≠ '#')
    (hfne : pyQuote c.remarks ≠ [])
    (hport : 0 < c.remotePort) (hport2 : c.remotePort ≤ 65535)
    (hsni : qsFirst ("sni=".data ++ c.sslSni) "sni".data = some c.sslSni)
    (hlow : toLowerAscii c.remoteAddr = c.remoteAddr)
    (hunq : pyUnquote (pyQuote c.remarks) = c.remarks) :
    parseTrojanUrl (trojanUriOfConfig c) = some (trRecordOfConfig c) := by
  rw [show trojanUriOfConfig c = "trojan://".data ++
    (c.password ++ '@' :: (c.remoteAddr ++ ':' :: (natToChars c.remotePort ++
      '?' :: (("sni=".data ++ c.sslSni) ++ '#' :: pyQuote c.remarks)))) by
    simp [trojanUriOfConfig]]
  rw [parseTrojanUrl_build c.password c.remoteAddr c.remotePort
    ("sni=".data ++ c.sslSni) (pyQuote c.remarks) hpw hhne hh hq hfne hport hport2]
  rw [hsni]
  dsimp only
  rw [hlow, hunq]
  rfl

/-- Claim C1 (amended): for every sample server, the three universal
subscription lines round-trip — the shadowsocks and vmess lines decode
back to the generated config's fields unconditionally, and the trojan
line does so provided the drawn password contains neither `#` nor `?`
(the password alphabet includes both, and such passwords derail
`urlparse`; see the counterexample). -/
theorem universal_roundtrip_benign :
    ∀ s ∈ sampleServers, ∀ rngS rngV rngT : Nat → Nat,
      (∀ c ∈ genPassword 32 rngT, c ≠ '#' ∧ c ≠ '?') →
      ∃ (ssC : SSConfig) (vmObj : List (LC × Jv)) (trC : TrojanConfig),
        generateShadowsocksConfig s rngS = .ok ssC ∧
        generateVmessConfig s rngV = .ok vmObj ∧
        generateTrojanConfig s rngT = .ok trC ∧
        parseSsUrl (ssUriOfConfig ssC) = some (ssRecordOfConfig ssC) ∧
        parseVmessUrl (vmessUriOfConfig vmObj) = some (vmRecordOfConfig vmObj) ∧
        parseTrojanUrl (trojanUriOfConfig trC) = some (trRecordOfConfig trC) := by
  intro s hs rngS rngV rngT hT
  have hpw32 : ∀ ch ∈ genPassword 32 rngT,
      ch ≠ '/' ∧ ch ≠ '?' ∧ ch ≠ '#' ∧ ch ≠ ':' := by
    intro ch hch
    have hp := genPassword_mem 32 rngT ch hch
    exact ⟨pwdChars_not_slash ch hp, (hT ch hch).2, (hT ch hch).1,
      pwdChars_not_colon ch hp⟩
  simp only [sampleServers, List.mem_cons, List.not_mem_nil, or_false] at hs
  rcases hs with rfl | rfl | rfl <;>
    (refine ⟨_, _, _, rfl, rfl, rfl, ?_, ?_, ?_⟩
     · exact ss_roundtrip_cfg _ (of_decide_eq_true rfl) (of_decide_eq_true rfl)
         (fun ch hch => pwdChars_ascii ch (genPassword_mem 16 rngS ch hch))
         (of_decide_eq_true rfl) (of_decide_eq_true rfl) (of_decide_eq_true rfl)
         (of_decide_eq_true rfl) (of_decide_eq_true rfl)
     · refine vmess_roundtrip_obj _ ?_ ⟨10086, rfl⟩ ⟨0, rfl⟩
       intro m hm
       simp only [List.mem_cons, List.not_mem_nil, or_false] at hm
       rcases hm with rfl | rfl | rfl | rfl | rfl | rfl | rfl | rfl | rfl |
         rfl | rfl | rfl | rfl | rfl <;>
         first
           | exact ⟨of_decide_eq_true rfl, of_decide_eq_true rfl⟩
           | exact ⟨of_decide_eq_true rfl, genUUID4_plain rngV⟩
     · exact trojan_roundtrip_cfg _ hpw32 (of_decide_eq_true rfl)
         (of_decide_eq_true rfl) (of_decide_eq_true rfl) (of_decide_eq_true rfl)
         (of_decide_eq_true rfl) (of_decide_eq_true rfl) (of_decide_eq_true rfl)
         (of_decide_eq_true rfl) (of_decide_eq_true rfl))

/-- Claim C1 witness: the amended theorem at the first sample server
with the all-zero choice streams (every password draw yields `a`). -/
theorem universal_roundtrip_benign_witness :
    ∃ (ssC : SSConfig) (vmObj : List (LC × Jv)) (trC : TrojanConfig),
      generateShadowsocksConfig sampleServer0 rngZero = .ok ssC ∧
      generateVmessConfig sampleServer0 rngZero = .ok vmObj ∧
      generateTrojanConfig sampleServer0 rngZero = .ok trC ∧
      parseSsUrl (ssUriOfConfig ssC) = some (ssRecordOfConfig ssC) ∧
      parseVmessUrl (vmessUriOfConfig vmObj) = some (vmRecordOfConfig vmObj) ∧
      parseTrojanUrl (trojanUriOfConfig trC) = some (trRecordOfConfig trC) :=
  universal_roundtrip_benign sampleServer0 (by decide) rngZero rngZero rngZero
    (by decide)

/-- Claim C1 counterexample: when every trojan password draw picks `#`
(a character of the generator's alphabet), the exported trojan line no
longer decodes to the config's fields — `urlparse` cuts the URL at the
first `#` of the password. -/
theorem roundtrip_fails_on_hash_password :
    generateTrojanConfig sampleServer0 rngHash = Except.ok c1HashCfg ∧
    parseTrojanUrl (trojanUriOfConfig c1HashCfg) ≠
      some (trRecordOfConfig c1HashCfg) :=
  ⟨rfl, by decide⟩
